import Mathlib

/-!
Shallow embedding of `src/custom_components/gios/pygios/__init__.py`
(class `Gios`, its `update` coroutine and `_async_get` helper),
together with theorems checking the natural-language specification
against the embedded code.

JSON documents decoded by the HTTP layer are modelled by the inductive
type `J`; Python dictionaries are modelled by association lists with
Python semantics (insertion order preserved, assignment to an existing
key updates in place, assignment to a fresh key appends).  Python
exceptions raised by subscripting, attribute access and the explicit
`raise` statements of the source are modelled by the type `PyExc`, and
the two library exception classes (`ApiError`, `NoStationError`)
together with an uncaught Python exception form the type `UErr` of
errors that can escape `update`.
-/

set_option autoImplicit false

namespace PyGios

/-- A JSON value as produced by `resp.json()`: `null` (Python `None`),
booleans, numbers, strings, arrays (Python lists) and objects (Python
dicts with string keys). -/
inductive J where
  | null
  | bool (b : Bool)
  | num (q : ℚ)
  | str (s : String)
  | arr (xs : List J)
  | obj (kvs : List (String × J))

/-- A hashable JSON value, i.e. one that Python accepts as a dictionary
key.  Arrays and objects are unhashable: using one as a key raises
`TypeError`. -/
inductive JKey where
  | knull
  | kbool (b : Bool)
  | knum (q : ℚ)
  | kstr (s : String)
deriving DecidableEq

/-- Python exceptions arising inside `update`. -/
inductive PyExc where
  | keyError (k : JKey)
  | indexError
  | typeError
  | attributeError
  | valueError
deriving DecidableEq

/-- Errors that can escape `Gios.update`: the two library exception
classes of the source module plus any uncaught Python exception.
`noStation` carries the unmatched configured station id (the source
puts it in the message string). -/
inductive UErr where
  | noStation (sid : J)
  | apiError (body : String)
  | py (e : PyExc)

/-- Python truthiness (`if x:`) of a JSON value: `None`, `False`, `0`,
`""`, `[]` and `{}` are falsy, everything else is truthy. -/
def pyTruthy : J → Bool
  | .null => false
  | .bool b => b
  | .num q => decide (q ≠ 0)
  | .str s => decide (s ≠ "")
  | .arr xs => !xs.isEmpty
  | .obj kvs => !kvs.isEmpty

/-- Truthiness of the result of `_async_get`, which is either a decoded
document or Python `None` when the request failed with a client error. -/
def pyTruthyO : Option J → Bool
  | none => false
  | some j => pyTruthy j

mutual
/-- Python `==` on JSON values (structural; `1 == 1.0` holds because
numbers form one constructor). -/
def pyEqB : J → J → Bool
  | J.null, J.null => true
  | J.bool a, J.bool b => a == b
  | J.num a, J.num b => a == b
  | J.str a, J.str b => a == b
  | J.arr xs, J.arr ys => pyEqL xs ys
  | J.obj xs, J.obj ys => pyEqKV xs ys
  | _, _ => false

def pyEqL : List J → List J → Bool
  | [], [] => true
  | x :: xs, y :: ys => pyEqB x y && pyEqL xs ys
  | _, _ => false

def pyEqKV : List (String × J) → List (String × J) → Bool
  | [], [] => true
  | (k1, v1) :: xs, (k2, v2) :: ys => k1 == k2 && pyEqB v1 v2 && pyEqKV xs ys
  | _, _ => false
end

/-- Python `==` between a dictionary key and a JSON value (used for
`station[ATTR_ID] == self.station_id` and `sensor != ATTR_AQI`). -/
def keyOfJ : J → Except PyExc JKey
  | .null => .ok .knull
  | .bool b => .ok (.kbool b)
  | .num q => .ok (.knum q)
  | .str s => .ok (.kstr s)
  | .arr _ => .error .typeError
  | .obj _ => .error .typeError

/-- The JSON value denoted by a key. -/
def jOfKey : JKey → J
  | .knull => J.null
  | .kbool b => J.bool b
  | .knum q => J.num q
  | .kstr s => J.str s

/-- Python subscripting with a string key, `x["k"]`: objects look the
key up (`KeyError` when absent), every other value raises `TypeError`. -/
def getItem : J → String → Except PyExc J
  | .obj kvs, k =>
      match kvs.find? (fun p => p.1 == k) with
      | some p => .ok p.2
      | none => .error (.keyError (.kstr k))
  | .arr _, _ => .error .typeError
  | .str _, _ => .error .typeError
  | .null, _ => .error .typeError
  | .bool _, _ => .error .typeError
  | .num _, _ => .error .typeError

/-- `x["k"]` where `x` may be Python `None` (a failed fetch):
`None["k"]` raises `TypeError`. -/
def getItemO : Option J → String → Except PyExc J
  | none, _ => .error .typeError
  | some j, k => getItem j k

/-- Python subscripting with a natural index, `x[i]`: arrays and strings
index (raising `IndexError` out of range), objects raise `KeyError`,
scalars raise `TypeError`. -/
def getIdx : J → Nat → Except PyExc J
  | .arr xs, i =>
      match xs.get? i with
      | some x => .ok x
      | none => .error .indexError
  | .str s, i =>
      match s.data.get? i with
      | some c => .ok (.str (String.mk [c]))
      | none => .error .indexError
  | .obj _, i => .error (.keyError (.knum i))
  | .null, _ => .error .typeError
  | .bool _, _ => .error .typeError
  | .num _, _ => .error .typeError

/-- Python `str.lower()`, characterwise (the pollutant codes and level
names of this API are ASCII). -/
def pyToLower (s : String) : String := String.mk (s.data.map Char.toLower)

/-- Python `x.lower()` on a JSON value: only strings have the method,
everything else raises `AttributeError`. -/
def pyLowerS : J → Except PyExc String
  | .str s => .ok (pyToLower s)
  | _ => .error .attributeError

/-- Python iteration `for x in doc`: arrays yield their elements,
objects their keys, strings their characters; scalars raise
`TypeError`. -/
def pyIter : J → Except PyExc (List J)
  | .arr xs => .ok xs
  | .obj kvs => .ok (kvs.map (fun p => J.str p.1))
  | .str s => .ok (s.data.map (fun c => J.str (String.mk [c])))
  | .null => .error .typeError
  | .bool _ => .error .typeError
  | .num _ => .error .typeError

/-- One pollutant record stored in `self._data`: a Python dict with
string keys (`"id"`, `"name"`, `"value"`, `"index"`). -/
abbrev Entry := List (String × J)

/-- The `self._data` dictionary, keyed by (hashable) pollutant codes,
in Python dict semantics: insertion order preserved, assigning to an
existing key updates it in place, assigning to a fresh key appends. -/
abbrev Data := List (JKey × Entry)

/-- Python dict assignment `e[k] = v` on an entry. -/
def entrySet : Entry → String → J → Entry
  | [], k, v => [(k, v)]
  | (k1, v1) :: rest, k, v =>
      if k1 = k then (k, v) :: rest else (k1, v1) :: entrySet rest k v

/-- Python dict lookup `e[k]` on an entry (`KeyError` when absent). -/
def entryGet : Entry → String → Except PyExc J
  | [], k => .error (.keyError (.kstr k))
  | (k1, v1) :: rest, k => if k1 = k then .ok v1 else entryGet rest k

/-- Lookup on an entry as an `Option` (for stating theorems). -/
def entryGetO : Entry → String → Option J
  | [], _ => none
  | (k1, v1) :: rest, k => if k1 = k then some v1 else entryGetO rest k

/-- Python dict assignment `self._data[k] = e`. -/
def dataSet : Data → JKey → Entry → Data
  | [], k, e => [(k, e)]
  | (k1, e1) :: rest, k, e =>
      if k1 = k then (k, e) :: rest else (k1, e1) :: dataSet rest k e

/-- Python dict lookup `self._data[k]` (`KeyError` when absent). -/
def dataGet : Data → JKey → Except PyExc Entry
  | [], k => .error (.keyError k)
  | (k1, e1) :: rest, k => if k1 = k then .ok e1 else dataGet rest k

/-- Lookup on the mapping as an `Option` (for stating theorems). -/
def dataGetO : Data → JKey → Option Entry
  | [], _ => none
  | (k1, e1) :: rest, k => if k1 = k then some e1 else dataGetO rest k

/-- The key list of the mapping, in Python iteration (insertion)
order. -/
def dataKeys (d : Data) : List JKey := d.map Prod.fst

/-- The outcome of one HTTP GET as `_async_get` sees it: a 200
response with its decoded body, a transport-level `ClientError`, or a
non-200 status whose response text becomes the `ApiError` payload. -/
inductive FetchResult where
  | ok (body : J)
  | connErr
  | badStatus (text : String)

/-- `Gios._async_get` (lines 132–145): a 200 response yields its body;
a `ClientError` is caught and the function returns `None`; a non-200
status raises `ApiError(await resp.text())`, which the
`except ClientError` clause does not catch, so it escapes. -/
def asyncGet : FetchResult → Except UErr (Option J)
  | .ok b => .ok (some b)
  | .connErr => .ok none
  | .badStatus t => .error (.apiError t)

/-- One unchanged upstream: the response of every endpoint consumed by
`update`.  The sensor endpoint is keyed by the sensor id interpolated
into its URL, i.e. the value of `self._data[sensor]["id"]`. -/
structure Env where
  stations : FetchResult
  station : FetchResult
  sensor : J → FetchResult
  indexes : FetchResult

/-- The mutable fields of a `Gios` instance (the aiohttp session is
the injected transport, modelled by `Env`). -/
structure GiosState where
  data : Data
  station_id : J
  latitude : J
  longitude : J
  station_name : J

/-- `Gios.__init__(station_id, session)`: empty mapping, metadata
fields `None`. -/
def initState (sid : J) : GiosState :=
  { data := [], station_id := sid, latitude := J.null, longitude := J.null,
    station_name := J.null }

/-- The `data` property of the class. -/
def dataProp (s : GiosState) : Data := s.data

/-- The `available` property of the class: whether `len(self._data)`
is positive. -/
def available (s : GiosState) : Bool := decide (0 < s.data.length)

/-- How a phase of `update` ends: fall through to the next statement,
`return` from `update`, or an escaping exception. -/
inductive Outcome where
  | ok
  | ret
  | exn (e : UErr)

/-- The `for station in stations` loop (lines 46–50), threading the
latitude/longitude/name fields; Python assigns them one at a time, so
an exception part-way leaves the earlier assignments in place.  Every
matching entry overwrites the fields (the loop has no `break`). -/
def resolveLoop (sid : J) : List J → J → J → J → (J × J × J) × Option PyExc
  | [], lat, lon, name => ((lat, lon, name), none)
  | st :: rest, lat, lon, name =>
    match getItem st "id" with
    | .error e => ((lat, lon, name), some e)
    | .ok stid =>
      if pyEqB stid sid then
        match getItem st "gegrLat" with
        | .error e => ((lat, lon, name), some e)
        | .ok la =>
          match getItem st "gegrLon" with
          | .error e => ((la, lon, name), some e)
          | .ok lo =>
            match getItem st "stationName" with
            | .error e => ((la, lo, name), some e)
            | .ok nm => resolveLoop sid rest la lo nm
      else resolveLoop sid rest lat lon name

/-- Lines 40–57 of `update`: when `self.station_name` is falsy, fetch
the station directory; a falsy result returns (mapping untouched); a
successful fetch runs the resolve loop and raises `NoStationError`
when the name is still falsy afterwards. -/
def phase1 (env : Env) (s : GiosState) : GiosState × Outcome :=
  if pyTruthy s.station_name then (s, .ok)
  else
    match asyncGet env.stations with
    | .error u => (s, .exn u)
    | .ok none => (s, .ret)
    | .ok (some stJ) =>
      if !pyTruthy stJ then (s, .ret)
      else
        match pyIter stJ with
        | .error e => (s, .exn (.py e))
        | .ok sts =>
          match resolveLoop s.station_id sts s.latitude s.longitude s.station_name with
          | ((la, lo, nm), some e) =>
            ({ s with latitude := la, longitude := lo, station_name := nm }, .exn (.py e))
          | ((la, lo, nm), none) =>
            if !pyTruthy nm then
              ({ s with latitude := la, longitude := lo, station_name := nm },
               .exn (.noStation s.station_id))
            else
              ({ s with latitude := la, longitude := lo, station_name := nm }, .ok)

/-- The `for sensor in station_data` loop (lines 64–68): store a fresh
`{id, name}` entry per sensor, keyed by its pollutant code.  Python
evaluates the right-hand side dict literal before the subscript target
(so `sensor["id"]`, then `sensor["param"]["paramName"]`, then
`sensor["param"]["paramCode"]`); an unhashable code raises `TypeError`
at the store. -/
def buildLoop : List J → Data → Data × Option PyExc
  | [], d => (d, none)
  | sensor :: rest, d =>
    match getItem sensor "id" with
    | .error e => (d, some e)
    | .ok sid =>
      match getItem sensor "param" with
      | .error e => (d, some e)
      | .ok par =>
        match getItem par "paramName" with
        | .error e => (d, some e)
        | .ok pname =>
          match getItem par "paramCode" with
          | .error e => (d, some e)
          | .ok pcode =>
            match keyOfJ pcode with
            | .error e => (d, some e)
            | .ok k => buildLoop rest (dataSet d k [("id", sid), ("name", pname)])

/-- Lines 59–68 of `update`: fetch the sensor list for the station; a
falsy result clears the mapping and returns; otherwise add an
`{id, name}` entry per sensor. -/
def phase2 (env : Env) (s : GiosState) : GiosState × Outcome :=
  match asyncGet env.station with
  | .error u => (s, .exn u)
  | .ok none => ({ s with data := [] }, .ret)
  | .ok (some sd) =>
    if !pyTruthy sd then ({ s with data := [] }, .ret)
    else
      match pyIter sd with
      | .error e => (s, .exn (.py e))
      | .ok sensors =>
        match buildLoop sensors s.data with
        | (d, some e) => ({ s with data := d }, .exn (.py e))
        | (d, none) => ({ s with data := d }, .ok)

/-- The guarded extraction of lines 74–83: take
`sensor_data["values"][0]["value"]` if truthy, else the value at index
1 if truthy, else `raise ValueError`. -/
def selectValue (sd : Option J) : Except PyExc J :=
  match getItemO sd "values" with
  | .error e => .error e
  | .ok vs =>
    match getIdx vs 0 with
    | .error e => .error e
    | .ok e0 =>
      match getItem e0 "value" with
      | .error e => .error e
      | .ok v0 =>
        if pyTruthy v0 then .ok v0
        else
          match getIdx vs 1 with
          | .error e => .error e
          | .ok e1 =>
            match getItem e1 "value" with
            | .error e => .error e
            | .ok v1 => if pyTruthy v1 then .ok v1 else .error .valueError

/-- The exception classes of the `except` clause at line 84:
`(ValueError, IndexError, TypeError)`. -/
def caughtAtValues : PyExc → Bool
  | .valueError => true
  | .indexError => true
  | .typeError => true
  | _ => false

/-- The exception classes of the `except` clause at line 104:
`(IndexError, TypeError)`. -/
def caughtAtIndexes : PyExc → Bool
  | .indexError => true
  | .typeError => true
  | _ => false

/-- The `for sensor in self._data` loop of lines 70–87.  For each
non-`"AQI"` key: `_get_sensor` reads `self._data[sensor]["id"]`
(outside the `try`, so a failure there escapes), fetches the sensor
endpoint, then runs the guarded extraction and stores the chosen
value; an exception of a caught class clears the mapping and returns,
any other escapes with the mapping as mutated so far. -/
def valuesLoop (env : Env) : List JKey → Data → Data × Outcome
  | [], d => (d, .ok)
  | k :: rest, d =>
    if k = JKey.kstr "AQI" then valuesLoop env rest d
    else
      match dataGet d k with
      | .error e => (d, .exn (.py e))
      | .ok entry =>
        match entryGet entry "id" with
        | .error e => (d, .exn (.py e))
        | .ok sid =>
          match asyncGet (env.sensor sid) with
          | .error u => (d, .exn u)
          | .ok sdO =>
            match selectValue sdO with
            | .error e =>
              if caughtAtValues e then ([], .ret) else (d, .exn (.py e))
            | .ok v =>
              match dataGet d k with
              | .error e => (d, .exn (.py e))
              | .ok entry2 =>
                valuesLoop env rest (dataSet d k (entrySet entry2 "value" v))

/-- Lines 70–87 of `update` as a phase on the state (the loop iterates
the keys of `self._data` in insertion order). -/
def phase3 (env : Env) (s : GiosState) : GiosState × Outcome :=
  match valuesLoop env (dataKeys s.data) s.data with
  | (d, o) => ({ s with data := d }, o)

/-- Python `s.replace(".", "")` on the character list: scan left to
right dropping every occurrence of the (length-one) needle. -/
def replaceDotChars : List Char → List Char
  | [] => []
  | c :: cs => if c = '.' then replaceDotChars cs else c :: replaceDotChars cs

/-- Python `s.replace(".", "")`. -/
def replaceDotEmpty (s : String) : String := String.mk (replaceDotChars s.data)

/-- `ATTR_INDEX_LEVEL.format(...)` applied to an already-lowercased
code (lines 93–95): strip periods and append `"IndexLevel"`. -/
def indexLevelKey (lowered : String) : String :=
  replaceDotEmpty lowered ++ "IndexLevel"

/-- The full key derivation of lines 93–95 for a string pollutant
code: `code.lower().replace(".", "")` interpolated into the
`"IndexLevel"` format string. -/
def indexKeyOfCode (code : String) : String :=
  indexLevelKey (pyToLower code)

/-- The `for sensor in self._data` loop of lines 91–98: for each
non-`"AQI"` key, build the per-pollutant index key from
`sensor.lower().replace(".", "")`, look it up in the index document
and store the lowercased `indexLevelName`.  Exceptions are handed back
for the `try` of lines 90–107 to classify. -/
def indexesLoop (idx : Option J) : List JKey → Data → Data × Option PyExc
  | [], d => (d, none)
  | k :: rest, d =>
    if k = JKey.kstr "AQI" then indexesLoop idx rest d
    else
      match pyLowerS (jOfKey k) with
      | .error e => (d, some e)
      | .ok low =>
        match getItemO idx (indexLevelKey low) with
        | .error e => (d, some e)
        | .ok lvl =>
          match getItem lvl "indexLevelName" with
          | .error e => (d, some e)
          | .ok nm =>
            match pyLowerS nm with
            | .error e => (d, some e)
            | .ok lnm =>
              match dataGet d k with
              | .error e => (d, some e)
              | .ok entry =>
                indexesLoop idx rest (dataSet d k (entrySet entry "index" (J.str lnm)))

/-- Lines 101–103: `indexes["stIndexLevel"]["indexLevelName"].lower()`
(the right-hand side of the `"AQI"` value assignment). -/
def stLevelValue (idx : Option J) : Except PyExc String :=
  match getItemO idx "stIndexLevel" with
  | .error e => .error e
  | .ok st =>
    match getItem st "indexLevelName" with
    | .error e => .error e
    | .ok nm => pyLowerS nm

/-- Lines 89–107 of `update`: fetch the index document, fill each
pollutant's `index` field, then write the synthetic `"AQI"` entry
(`{name: "AQI"}` first, then its `value`).  A caught exception
(`IndexError`, `TypeError`) anywhere in the `try` clears the mapping
and returns; an uncaught one escapes with the mapping as mutated so
far. -/
def phase4 (env : Env) (s : GiosState) : GiosState × Outcome :=
  match asyncGet env.indexes with
  | .error u => (s, .exn u)
  | .ok idx =>
    match indexesLoop idx (dataKeys s.data) s.data with
    | (d, some e) =>
      if caughtAtIndexes e then ({ s with data := [] }, .ret)
      else ({ s with data := d }, .exn (.py e))
    | (d, none) =>
      let d1 := dataSet d (JKey.kstr "AQI") [("name", J.str "AQI")]
      match stLevelValue idx with
      | .error e =>
        if caughtAtIndexes e then ({ s with data := [] }, .ret)
        else ({ s with data := d1 }, .exn (.py e))
      | .ok w =>
        match dataGet d1 (JKey.kstr "AQI") with
        | .error e =>
          if caughtAtIndexes e then ({ s with data := [] }, .ret)
          else ({ s with data := d1 }, .exn (.py e))
        | .ok entry =>
          ({ s with data := dataSet d1 (JKey.kstr "AQI") (entrySet entry "value" (J.str w)) },
           .ok)

/-- Lines 59–107 of `update`: everything after the station-metadata
block. -/
def updateTail (env : Env) (s : GiosState) : GiosState × Option UErr :=
  match phase2 env s with
  | (s2, .ret) => (s2, none)
  | (s2, .exn u) => (s2, some u)
  | (s2, .ok) =>
    match phase3 env s2 with
    | (s3, .ret) => (s3, none)
    | (s3, .exn u) => (s3, some u)
    | (s3, .ok) =>
      match phase4 env s3 with
      | (s4, .ret) => (s4, none)
      | (s4, .exn u) => (s4, some u)
      | (s4, .ok) => (s4, none)

/-- `Gios.update` (lines 38–107): the four phases in sequence.  The
second component is `none` when the coroutine returns normally and
`some e` when the exception `e` escapes to the caller. -/
def update (env : Env) (s : GiosState) : GiosState × Option UErr :=
  match phase1 env s with
  | (s1, .ret) => (s1, none)
  | (s1, .exn u) => (s1, some u)
  | (s1, .ok) => updateTail env s1

/-!  Concrete documents and environments used to evaluate the embedded
code at specific inputs. -/

/-- A directory entry for station 1. -/
def stDoc : J :=
  J.obj [("id", J.num 1), ("gegrLat", J.str "50.1"), ("gegrLon", J.str "20.2"),
         ("stationName", J.str "Test Station")]

/-- A sensor document for one PM10 sensor (sensor id 10). -/
def pm10SensorDoc : J :=
  J.obj [("id", J.num 10),
         ("param", J.obj [("paramCode", J.str "PM10"),
                          ("paramName", J.str "particulate matter 10")])]

/-- A sensor list with one PM10 sensor (sensor id 10). -/
def sensorListDoc : J := J.arr [pm10SensorDoc]

/-- Sensor values `[42, 37]`. -/
def valuesDoc : J :=
  J.obj [("values", J.arr [J.obj [("value", J.num 42)], J.obj [("value", J.num 37)]])]

/-- Sensor values `[null, 42]`. -/
def valuesNull42 : J :=
  J.obj [("values", J.arr [J.obj [("value", J.null)], J.obj [("value", J.num 42)]])]

/-- Sensor values `[null, null]`. -/
def valuesNullNull : J :=
  J.obj [("values", J.arr [J.obj [("value", J.null)], J.obj [("value", J.null)]])]

/-- Sensor values `[0, 42]`. -/
def valuesZero42 : J :=
  J.obj [("values", J.arr [J.obj [("value", J.num 0)], J.obj [("value", J.num 42)]])]

/-- Sensor values `[0, null]`. -/
def valuesZeroNull : J :=
  J.obj [("values", J.arr [J.obj [("value", J.num 0)], J.obj [("value", J.null)]])]

/-- A lone sensor value `[0]`. -/
def valuesZeroOnly : J :=
  J.obj [("values", J.arr [J.obj [("value", J.num 0)]])]

/-- An index document holding both the PM10 key and the overall key. -/
def idxDoc : J :=
  J.obj [("pm10IndexLevel", J.obj [("indexLevelName", J.str "Good")]),
         ("stIndexLevel", J.obj [("indexLevelName", J.str "Moderate")])]

/-- An index document lacking `"pm10IndexLevel"`. -/
def idxDocNoPm10 : J :=
  J.obj [("stIndexLevel", J.obj [("indexLevelName", J.str "Moderate")])]

/-- An index document that also covers an SO2 pollutant. -/
def idxDocWithSO2 : J :=
  J.obj [("pm10IndexLevel", J.obj [("indexLevelName", J.str "Good")]),
         ("so2IndexLevel", J.obj [("indexLevelName", J.str "Fair")]),
         ("stIndexLevel", J.obj [("indexLevelName", J.str "Moderate")])]

/-- A fully healthy upstream for station 1. -/
def envGood : Env :=
  { stations := .ok (J.arr [stDoc]), station := .ok sensorListDoc,
    sensor := fun _ => .ok valuesDoc, indexes := .ok idxDoc }

/-- The healthy upstream except that the index document lacks
`"pm10IndexLevel"`. -/
def envNoPm10 : Env := { envGood with indexes := .ok idxDocNoPm10 }

/-- The healthy upstream except that the directory endpoint answers
with a non-success status. -/
def envBadStations : Env := { envGood with stations := .badStatus "server error" }

/-- The healthy upstream except that every sensor reports
`[null, 42]`. -/
def envNull42 : Env := { envGood with sensor := fun _ => .ok valuesNull42 }

/-- The healthy upstream except that every sensor reports
`[null, null]`. -/
def envNullNull : Env := { envGood with sensor := fun _ => .ok valuesNullNull }

/-- The healthy upstream except that every sensor reports `[0, 42]`. -/
def envZero42 : Env := { envGood with sensor := fun _ => .ok valuesZero42 }

/-- The healthy upstream except that every sensor reports
`[0, null]`. -/
def envZeroNull : Env := { envGood with sensor := fun _ => .ok valuesZeroNull }

/-- The healthy upstream except that every sensor reports a lone
`[0]`. -/
def envZeroOnly : Env := { envGood with sensor := fun _ => .ok valuesZeroOnly }

/-- The healthy upstream except that the sensor endpoint suffers a
connection error. -/
def envSensorConn : Env := { envGood with sensor := fun _ => .connErr }

/-- The healthy upstream except that the sensor-list endpoint answers
with a non-success status. -/
def envStationBad : Env := { envGood with station := .badStatus "bad list" }

/-- The healthy upstream except that the sensor endpoint answers with
a non-success status. -/
def envSensorBad : Env := { envGood with sensor := fun _ => .badStatus "bad sensor" }

/-- The healthy upstream except that the index endpoint answers with a
non-success status. -/
def envIdxBad : Env := { envGood with indexes := .badStatus "bad indexes" }

/-- The healthy upstream except that the sensor document lacks the
`"values"` key. -/
def envNoValuesField : Env := { envGood with sensor := fun _ => .ok (J.obj [("data", J.null)]) }

/-- The healthy upstream except that the index endpoint suffers a
connection error. -/
def envIdxConn : Env := { envGood with indexes := .connErr }

/-- The healthy upstream except that the directory lists the matching
station followed by a malformed (non-object) entry. -/
def envDirtyDir : Env := { envGood with stations := .ok (J.arr [stDoc, J.num 5]) }

/-- The healthy upstream with an index document that also covers SO2. -/
def envWithSO2 : Env := { envGood with indexes := .ok idxDocWithSO2 }

/-- A fresh reader configured for station 1. -/
def fresh1 : GiosState := initState (J.num 1)

/-- A reader whose metadata is already cached. -/
def cached1 : GiosState :=
  { fresh1 with station_name := J.str "Test Station", latitude := J.str "50.1",
                longitude := J.str "20.2" }

/-- The cached reader additionally holding a stale SO2 entry from an
earlier cycle. -/
def staleSO2 : GiosState :=
  { cached1 with data := [(JKey.kstr "SO2", [("id", J.num 99), ("name", J.str "sulphur dioxide")])] }

/-!  Helper lemmas about the dictionary operations. -/

theorem entryGetO_entrySet_self (e : Entry) (f : String) (v : J) :
    entryGetO (entrySet e f v) f = some v := by
  induction e with
  | nil => simp [entrySet, entryGetO]
  | cons p rest ih =>
    obtain ⟨k1, v1⟩ := p
    by_cases h : k1 = f
    · subst h; simp [entrySet, entryGetO]
    · simp [entrySet, entryGetO, h, ih]

theorem entryGetO_entrySet_ne (e : Entry) (f f2 : String) (v : J) (h : f2 ≠ f) :
    entryGetO (entrySet e f v) f2 = entryGetO e f2 := by
  induction e with
  | nil => simp [entrySet, entryGetO, Ne.symm h]
  | cons p rest ih =>
    obtain ⟨k1, v1⟩ := p
    by_cases hk : k1 = f
    · subst hk
      simp [entrySet, entryGetO, Ne.symm h]
    · simp [entrySet, entryGetO, hk, ih]

theorem entryGet_eq (e : Entry) (f : String) :
    entryGet e f = match entryGetO e f with
      | some v => Except.ok v
      | none => Except.error (PyExc.keyError (JKey.kstr f)) := by
  induction e with
  | nil => rfl
  | cons p rest ih =>
    obtain ⟨k1, v1⟩ := p
    by_cases h : k1 = f
    · subst h; simp [entryGet, entryGetO]
    · simp [entryGet, entryGetO, h, ih]

theorem dataGetO_dataSet_self (d : Data) (k : JKey) (e : Entry) :
    dataGetO (dataSet d k e) k = some e := by
  induction d with
  | nil => simp [dataSet, dataGetO]
  | cons p rest ih =>
    obtain ⟨k1, e1⟩ := p
    by_cases h : k1 = k
    · subst h; simp [dataSet, dataGetO]
    · simp [dataSet, dataGetO, h, ih]

theorem dataKeys_cons (p : JKey × Entry) (t : Data) :
    dataKeys (p :: t) = p.1 :: dataKeys t := rfl

theorem dataGetO_dataSet_ne (d : Data) (k k2 : JKey) (e : Entry) (h : k2 ≠ k) :
    dataGetO (dataSet d k e) k2 = dataGetO d k2 := by
  induction d with
  | nil => simp [dataSet, dataGetO, Ne.symm h]
  | cons p rest ih =>
    obtain ⟨k1, e1⟩ := p
    by_cases hk : k1 = k
    · subst hk
      simp [dataSet, dataGetO, Ne.symm h]
    · simp [dataSet, dataGetO, hk, ih]

theorem dataSet_dataSet_same (d : Data) (k : JKey) (e1 e2 : Entry) :
    dataSet (dataSet d k e1) k e2 = dataSet d k e2 := by
  induction d with
  | nil => simp [dataSet]
  | cons p rest ih =>
    obtain ⟨k1, e0⟩ := p
    by_cases h : k1 = k
    · subst h; simp [dataSet]
    · simp [dataSet, h, ih]

theorem dataGet_eq (d : Data) (k : JKey) :
    dataGet d k = match dataGetO d k with
      | some e => Except.ok e
      | none => Except.error (PyExc.keyError k) := by
  induction d with
  | nil => rfl
  | cons p rest ih =>
    obtain ⟨k1, e1⟩ := p
    by_cases h : k1 = k
    · subst h; simp [dataGet, dataGetO]
    · simp [dataGet, dataGetO, h, ih]

theorem dataGetO_eq_none_iff (d : Data) (k : JKey) :
    dataGetO d k = none ↔ k ∉ dataKeys d := by
  induction d with
  | nil => simp [dataGetO, dataKeys]
  | cons p rest ih =>
    obtain ⟨k1, e1⟩ := p
    rw [dataKeys_cons]
    by_cases h : k1 = k
    · subst h; simp [dataGetO]
    · simp [dataGetO, h, ih, Ne.symm h]

theorem mem_dataKeys_of_dataGetO {d : Data} {k : JKey} {e : Entry}
    (h : dataGetO d k = some e) : k ∈ dataKeys d := by
  by_contra hc
  rw [← dataGetO_eq_none_iff] at hc
  rw [h] at hc
  cases hc

theorem dataSet_not_mem (d : Data) (k : JKey) (e : Entry) (h : k ∉ dataKeys d) :
    dataSet d k e = d ++ [(k, e)] := by
  induction d with
  | nil => rfl
  | cons p rest ih =>
    obtain ⟨k1, e1⟩ := p
    rw [dataKeys_cons, List.mem_cons, not_or] at h
    obtain ⟨h1, h2⟩ := h
    simp [dataSet, Ne.symm h1, ih h2]

theorem dataKeys_dataSet_mem (d : Data) (k : JKey) (e : Entry) (h : k ∈ dataKeys d) :
    dataKeys (dataSet d k e) = dataKeys d := by
  induction d with
  | nil => simp [dataKeys] at h
  | cons p rest ih =>
    obtain ⟨k1, e1⟩ := p
    by_cases hk : k1 = k
    · subst hk; simp [dataSet, dataKeys_cons]
    · rw [dataKeys_cons, List.mem_cons] at h
      have h2 : k ∈ dataKeys rest := h.resolve_left (fun hh => hk hh.symm)
      simp [dataSet, hk, dataKeys_cons, ih h2]

theorem nodup_dataKeys_dataSet {d : Data} (h : (dataKeys d).Nodup) (k : JKey) (e : Entry) :
    (dataKeys (dataSet d k e)).Nodup := by
  by_cases hm : k ∈ dataKeys d
  · rw [dataKeys_dataSet_mem d k e hm]; exact h
  · rw [dataSet_not_mem d k e hm]
    have hap : dataKeys (d ++ [(k, e)]) = dataKeys d ++ [k] := by simp [dataKeys]
    rw [hap, List.nodup_append]
    refine ⟨h, List.nodup_singleton _, ?_⟩
    intro a ha hb
    rw [List.mem_singleton] at hb
    subst hb
    exact hm ha

theorem dataKeys_append (d1 d2 : Data) :
    dataKeys (d1 ++ d2) = dataKeys d1 ++ dataKeys d2 := by
  simp [dataKeys]

theorem dataGetO_append_left {d1 : Data} {k : JKey} (h : k ∈ dataKeys d1) (d2 : Data) :
    dataGetO (d1 ++ d2) k = dataGetO d1 k := by
  induction d1 with
  | nil => simp [dataKeys] at h
  | cons p rest ih =>
    obtain ⟨k1, e1⟩ := p
    by_cases hk : k1 = k
    · subst hk; simp [dataGetO]
    · rw [dataKeys_cons, List.mem_cons] at h
      have h2 : k ∈ dataKeys rest := h.resolve_left (fun hh => hk hh.symm)
      simp [dataGetO, hk, ih h2]

theorem dataGetO_append_right {d1 : Data} {k : JKey} (h : k ∉ dataKeys d1) (d2 : Data) :
    dataGetO (d1 ++ d2) k = dataGetO d2 k := by
  induction d1 with
  | nil => simp
  | cons p rest ih =>
    obtain ⟨k1, e1⟩ := p
    rw [dataKeys_cons, List.mem_cons, not_or] at h
    obtain ⟨h1, h2⟩ := h
    simp [dataGetO, Ne.symm h1, ih h2]

theorem dataSet_append_left {d1 : Data} {k : JKey} (h : k ∈ dataKeys d1) (d2 : Data) (e : Entry) :
    dataSet (d1 ++ d2) k e = dataSet d1 k e ++ d2 := by
  induction d1 with
  | nil => simp [dataKeys] at h
  | cons p rest ih =>
    obtain ⟨k1, e1⟩ := p
    by_cases hk : k1 = k
    · subst hk; simp [dataSet]
    · rw [dataKeys_cons, List.mem_cons] at h
      have h2 : k ∈ dataKeys rest := h.resolve_left (fun hh => hk hh.symm)
      simp [dataSet, hk, ih h2]

theorem data_ext {d1 : Data} (h1 : (dataKeys d1).Nodup) :
    ∀ {d2 : Data}, dataKeys d1 = dataKeys d2 →
      (∀ k, dataGetO d1 k = dataGetO d2 k) → d1 = d2 := by
  induction d1 with
  | nil =>
    intro d2 hk _
    cases d2 with
    | nil => rfl
    | cons p t =>
      rw [dataKeys_cons] at hk
      cases hk
  | cons p t1 ih =>
    intro d2 hk hl
    obtain ⟨k1, e1⟩ := p
    cases d2 with
    | nil =>
      rw [dataKeys_cons] at hk
      cases hk
    | cons q t2 =>
      obtain ⟨k2, e2⟩ := q
      rw [dataKeys_cons, dataKeys_cons] at hk
      injection hk with hk12 hkt
      subst hk12
      rw [dataKeys_cons, List.nodup_cons] at h1
      have he : e1 = e2 := by
        have hh := hl k1
        simp [dataGetO] at hh
        exact hh
      subst he
      have ht : t1 = t2 := by
        apply ih h1.2 hkt
        intro k
        by_cases hkk : k = k1
        · subst hkk
          have hn1 : dataGetO t1 k = none := (dataGetO_eq_none_iff t1 k).2 h1.1
          have hn2 : dataGetO t2 k = none := by
            rw [dataGetO_eq_none_iff, ← hkt]
            exact h1.1
          rw [hn1, hn2]
        · have hh := hl k
          simpa [dataGetO, Ne.symm hkk] using hh
      rw [ht]

/-!  Write-list factorization of `buildLoop`: the writes it performs
and where it stops depend only on the sensor documents, not on the
dictionary it writes into. -/

/-- Apply a list of dictionary writes in order. -/
def applyW (d : Data) : List (JKey × Entry) → Data
  | [] => d
  | (k, e) :: ws => applyW (dataSet d k e) ws

/-- The last write to a key in a write list. -/
def wlook : List (JKey × Entry) → JKey → Option Entry
  | [], _ => none
  | (k1, e1) :: ws, k =>
    match wlook ws k with
    | some e => some e
    | none => if k1 = k then some e1 else none

/-- The keys of a write list. -/
def wkeys (ws : List (JKey × Entry)) : List JKey := ws.map Prod.fst

theorem wkeys_cons (p : JKey × Entry) (ws : List (JKey × Entry)) :
    wkeys (p :: ws) = p.1 :: wkeys ws := rfl

/-- The writes performed by `buildLoop` on the given sensor list (up to
the first failing document). -/
def buildWrites : List J → List (JKey × Entry)
  | [] => []
  | sensor :: rest =>
    match getItem sensor "id" with
    | .error _ => []
    | .ok sid =>
      match getItem sensor "param" with
      | .error _ => []
      | .ok par =>
        match getItem par "paramName" with
        | .error _ => []
        | .ok pname =>
          match getItem par "paramCode" with
          | .error _ => []
          | .ok pcode =>
            match keyOfJ pcode with
            | .error _ => []
            | .ok k => (k, [("id", sid), ("name", pname)]) :: buildWrites rest

/-- The exception on which `buildLoop` stops, when there is one. -/
def buildErr : List J → Option PyExc
  | [] => none
  | sensor :: rest =>
    match getItem sensor "id" with
    | .error e => some e
    | .ok _ =>
      match getItem sensor "param" with
      | .error e => some e
      | .ok par =>
        match getItem par "paramName" with
        | .error e => some e
        | .ok _ =>
          match getItem par "paramCode" with
          | .error e => some e
          | .ok pcode =>
            match keyOfJ pcode with
            | .error e => some e
            | .ok _ => buildErr rest

theorem buildLoop_eq (ss : List J) :
    ∀ d, buildLoop ss d = (applyW d (buildWrites ss), buildErr ss) := by
  induction ss with
  | nil => intro d; rfl
  | cons sensor rest ih =>
    intro d
    cases h1 : getItem sensor "id" with
    | error e => simp only [buildLoop, buildWrites, buildErr, applyW, h1]
    | ok sid =>
      cases h2 : getItem sensor "param" with
      | error e => simp only [buildLoop, buildWrites, buildErr, applyW, h1, h2]
      | ok par =>
        cases h3 : getItem par "paramName" with
        | error e => simp only [buildLoop, buildWrites, buildErr, applyW, h1, h2, h3]
        | ok pname =>
          cases h4 : getItem par "paramCode" with
          | error e => simp only [buildLoop, buildWrites, buildErr, applyW, h1, h2, h3, h4]
          | ok pcode =>
            cases h5 : keyOfJ pcode with
            | error e => simp only [buildLoop, buildWrites, buildErr, applyW, h1, h2, h3, h4, h5]
            | ok k =>
              simp only [buildLoop, buildWrites, buildErr, applyW, h1, h2, h3, h4, h5]
              exact ih (dataSet d k [("id", sid), ("name", pname)])

theorem dataGetO_applyW (ws : List (JKey × Entry)) :
    ∀ (d : Data) (k : JKey), dataGetO (applyW d ws) k
      = match wlook ws k with
        | some e => some e
        | none => dataGetO d k := by
  induction ws with
  | nil => intro d k; rfl
  | cons p ws ih =>
    intro d k
    obtain ⟨k1, e1⟩ := p
    rw [applyW, ih]
    cases h : wlook ws k with
    | some e => simp [wlook, h]
    | none =>
      simp only [wlook, h]
      by_cases hk : k1 = k
      · subst hk; simp [dataGetO_dataSet_self]
      · simp [hk, dataGetO_dataSet_ne d k1 k e1 (Ne.symm hk)]

theorem wlook_some_mem {ws : List (JKey × Entry)} {k : JKey}
    (h : wlook ws k ≠ none) : k ∈ wkeys ws := by
  induction ws with
  | nil => exact absurd rfl h
  | cons p ws ih =>
    obtain ⟨k1, e1⟩ := p
    rw [wkeys_cons, List.mem_cons]
    rw [wlook] at h
    cases h2 : wlook ws k with
    | some e2 => exact Or.inr (ih (by rw [h2]; simp))
    | none =>
      rw [h2] at h
      by_cases hk : k1 = k
      · exact Or.inl hk.symm
      · rw [if_neg hk] at h; exact absurd rfl h

theorem wlook_none_of_not_mem {ws : List (JKey × Entry)} {k : JKey}
    (h : k ∉ wkeys ws) : wlook ws k = none := by
  induction ws with
  | nil => rfl
  | cons p ws ih =>
    obtain ⟨k1, e1⟩ := p
    rw [wkeys_cons, List.mem_cons, not_or] at h
    rw [wlook, ih h.2, if_neg (fun hh => h.1 hh.symm)]

theorem mem_dataKeys_dataSet_iff (d : Data) (k k2 : JKey) (e : Entry) :
    k ∈ dataKeys (dataSet d k2 e) ↔ k ∈ dataKeys d ∨ k = k2 := by
  by_cases hm : k2 ∈ dataKeys d
  · rw [dataKeys_dataSet_mem d k2 e hm]
    constructor
    · exact Or.inl
    · rintro (h | h)
      · exact h
      · subst h; exact hm
  · rw [dataSet_not_mem d k2 e hm, dataKeys_append]
    constructor
    · intro h
      rcases List.mem_append.1 h with h | h
      · exact Or.inl h
      · simp [dataKeys] at h
        exact Or.inr h
    · rintro (h | h)
      · exact List.mem_append.2 (Or.inl h)
      · subst h
        refine List.mem_append.2 (Or.inr ?_)
        simp [dataKeys]

theorem mem_dataKeys_applyW (ws : List (JKey × Entry)) :
    ∀ (d : Data) (k : JKey), k ∈ dataKeys (applyW d ws) ↔ k ∈ dataKeys d ∨ k ∈ wkeys ws := by
  induction ws with
  | nil => intro d k; simp [applyW, wkeys]
  | cons p ws ih =>
    intro d k
    obtain ⟨k1, e1⟩ := p
    rw [applyW, ih, mem_dataKeys_dataSet_iff, wkeys_cons, List.mem_cons]
    tauto

theorem dataKeys_applyW_of_mem (ws : List (JKey × Entry)) :
    ∀ (d : Data), (∀ k ∈ wkeys ws, k ∈ dataKeys d) → dataKeys (applyW d ws) = dataKeys d := by
  induction ws with
  | nil => intro d _; rfl
  | cons p ws ih =>
    intro d hsub
    obtain ⟨k1, e1⟩ := p
    rw [applyW]
    have hk1 : k1 ∈ dataKeys d := hsub k1 (by rw [wkeys_cons]; exact List.mem_cons_self _ _)
    have hkeq : dataKeys (dataSet d k1 e1) = dataKeys d := dataKeys_dataSet_mem _ _ _ hk1
    rw [ih (dataSet d k1 e1) (fun k hk => by
      rw [hkeq]
      exact hsub k (by rw [wkeys_cons]; exact List.mem_cons_of_mem _ hk)), hkeq]

theorem nodup_dataKeys_applyW (ws : List (JKey × Entry)) :
    ∀ (d : Data), (dataKeys d).Nodup → (dataKeys (applyW d ws)).Nodup := by
  induction ws with
  | nil => intro d h; exact h
  | cons p ws ih =>
    intro d h
    obtain ⟨k1, e1⟩ := p
    rw [applyW]
    exact ih _ (nodup_dataKeys_dataSet h k1 e1)

theorem wlook_ne_none_of_mem {ws : List (JKey × Entry)} {k : JKey}
    (h : k ∈ wkeys ws) : wlook ws k ≠ none := by
  induction ws with
  | nil => cases h
  | cons p ws ih =>
    obtain ⟨k1, e1⟩ := p
    rw [wkeys_cons, List.mem_cons] at h
    rw [wlook]
    cases h2 : wlook ws k with
    | some e => simp
    | none =>
      rcases h with h | h
      · subst h
        simp
      · exact absurd h2 (ih h)

theorem wlook_mem {ws : List (JKey × Entry)} {k : JKey} {e : Entry}
    (h : wlook ws k = some e) : (k, e) ∈ ws := by
  induction ws with
  | nil => cases h
  | cons p ws ih =>
    obtain ⟨k1, e1⟩ := p
    rw [wlook] at h
    cases h2 : wlook ws k with
    | some e2 =>
      simp only [h2] at h
      injection h with he
      subst he
      exact List.mem_cons_of_mem _ (ih h2)
    | none =>
      simp only [h2] at h
      by_cases hk : k1 = k
      · rw [if_pos hk] at h
        injection h with he
        subst he
        subst hk
        exact List.mem_cons_self _ _
      · rw [if_neg hk] at h
        cases h

/-- Every write `buildLoop` performs stores a fresh two-field
`{id, name}` entry. -/
theorem buildWrites_shape (ss : List J) :
    ∀ p ∈ buildWrites ss, ∃ sid pname, p.2 = [("id", sid), ("name", pname)] := by
  induction ss with
  | nil =>
    intro p hp
    cases hp
  | cons sensor rest ih =>
    intro p hp
    simp only [buildWrites] at hp
    cases h1 : getItem sensor "id" with
    | error e => simp only [h1] at hp; cases hp
    | ok sid =>
      simp only [h1] at hp
      cases h2 : getItem sensor "param" with
      | error e => simp only [h2] at hp; cases hp
      | ok par =>
        simp only [h2] at hp
        cases h3 : getItem par "paramName" with
        | error e => simp only [h3] at hp; cases hp
        | ok pname =>
          simp only [h3] at hp
          cases h4 : getItem par "paramCode" with
          | error e => simp only [h4] at hp; cases hp
          | ok pcode =>
            simp only [h4] at hp
            cases h5 : keyOfJ pcode with
            | error e => simp only [h5] at hp; cases hp
            | ok k0 =>
              simp only [h5] at hp
              rcases List.mem_cons.1 hp with hh | hh
              · subst hh
                exact ⟨sid, pname, rfl⟩
              · exact ih p hh

/-- Re-running the write list of a build over a mapping whose keys are
exactly the keys the writes produce (possibly with one extra key set
on top) rebuilds exactly the same mapping, leaving the extra key as a
trailing entry. -/
theorem applyW_rebuild (ws : List (JKey × Entry)) (dI : Data) (kx : JKey) (ex : Entry)
    (hkeys : dataKeys dI = dataKeys (applyW [] ws)) :
    (kx ∈ dataKeys (applyW [] ws) →
      applyW (dataSet dI kx ex) ws = applyW [] ws)
    ∧ (kx ∉ dataKeys (applyW [] ws) →
      applyW (dataSet dI kx ex) ws = applyW [] ws ++ [(kx, ex)]) := by
  have hndB : (dataKeys (applyW [] ws)).Nodup := nodup_dataKeys_applyW ws [] List.nodup_nil
  have hndI : (dataKeys dI).Nodup := by rw [hkeys]; exact hndB
  have hKw : ∀ k ∈ dataKeys (applyW [] ws), k ∈ wkeys ws := by
    intro k hk
    rcases (mem_dataKeys_applyW ws [] k).1 hk with hh | hh
    · cases hh
    · exact hh
  have hwK : ∀ k ∈ wkeys ws, k ∈ dataKeys (applyW [] ws) :=
    fun k hk => (mem_dataKeys_applyW ws [] k).2 (Or.inr hk)
  have hlookB : ∀ k, dataGetO (applyW [] ws) k
      = match wlook ws k with
        | some e => some e
        | none => none := by
    intro k
    rw [dataGetO_applyW]
    cases wlook ws k <;> rfl
  constructor
  · intro hkx
    have hkxI : kx ∈ dataKeys dI := by rw [hkeys]; exact hkx
    have hset : dataKeys (dataSet dI kx ex) = dataKeys dI := dataKeys_dataSet_mem dI kx ex hkxI
    have hsub : ∀ k ∈ wkeys ws, k ∈ dataKeys (dataSet dI kx ex) := by
      intro k hk
      rw [hset, hkeys]
      exact hwK k hk
    have hnd1 : (dataKeys (applyW (dataSet dI kx ex) ws)).Nodup := by
      rw [dataKeys_applyW_of_mem ws _ hsub, hset]
      exact hndI
    apply data_ext hnd1
    · rw [dataKeys_applyW_of_mem ws _ hsub, hset, hkeys]
    · intro k
      rw [dataGetO_applyW, hlookB k]
      cases hw : wlook ws k with
      | some e => rfl
      | none =>
        have hnm : k ∉ wkeys ws := fun hm => wlook_ne_none_of_mem hm hw
        have hnB : k ∉ dataKeys (applyW [] ws) := fun hm => hnm (hKw k hm)
        have hne : k ≠ kx := fun hh => hnB (hh ▸ hkx)
        rw [dataGetO_dataSet_ne dI kx k ex hne]
        rw [(dataGetO_eq_none_iff dI k).2 (by rw [hkeys]; exact hnB)]
  · intro hkx
    have hkxI : kx ∉ dataKeys dI := by rw [hkeys]; exact hkx
    have hFapp : dataSet dI kx ex = dI ++ [(kx, ex)] := dataSet_not_mem dI kx ex hkxI
    have hkeysF : dataKeys (dataSet dI kx ex) = dataKeys dI ++ [kx] := by
      rw [hFapp, dataKeys_append]
      rfl
    have hsub : ∀ k ∈ wkeys ws, k ∈ dataKeys (dataSet dI kx ex) := by
      intro k hk
      rw [hkeysF]
      exact List.mem_append.2 (Or.inl (by rw [hkeys]; exact hwK k hk))
    have hkeys1 : dataKeys (applyW (dataSet dI kx ex) ws)
        = dataKeys (applyW [] ws) ++ [kx] := by
      rw [dataKeys_applyW_of_mem ws _ hsub, hkeysF, hkeys]
    have hnd1 : (dataKeys (applyW (dataSet dI kx ex) ws)).Nodup := by
      rw [hkeys1, List.nodup_append]
      refine ⟨hndB, List.nodup_singleton _, ?_⟩
      intro a ha hb
      rw [List.mem_singleton] at hb
      subst hb
      exact hkx ha
    apply data_ext hnd1
    · rw [hkeys1, dataKeys_append]
      rfl
    · intro k
      rw [dataGetO_applyW]
      cases hw : wlook ws k with
      | some e =>
        have hm : k ∈ dataKeys (applyW [] ws) :=
          hwK k (wlook_some_mem (by rw [hw]; simp))
        rw [dataGetO_append_left hm, hlookB k, hw]
      | none =>
        have hnm : k ∉ wkeys ws := fun hm => wlook_ne_none_of_mem hm hw
        have hnB : k ∉ dataKeys (applyW [] ws) := fun hm => hnm (hKw k hm)
        rw [dataGetO_append_right hnB]
        by_cases hk : k = kx
        · subst hk
          rw [hFapp, dataGetO_append_right (by rw [hkeys]; exact hnB)]
        · rw [hFapp, dataGetO_append_right (by rw [hkeys]; exact hnB)]

theorem replaceDotChars_eq_filter (l : List Char) :
    replaceDotChars l = l.filter (fun c => c ≠ '.') := by
  induction l with
  | nil => rfl
  | cons c cs ih =>
    by_cases h : c = '.'
    · subst h; simp [replaceDotChars, ih]
    · simp [replaceDotChars, h, ih]

theorem resolveLoop_no_match (sid : J) (sts : List J) (lat lon name : J)
    (h : ∀ st ∈ sts, ∃ v, getItem st "id" = .ok v ∧ pyEqB v sid = false) :
    resolveLoop sid sts lat lon name = ((lat, lon, name), none) := by
  induction sts with
  | nil => rfl
  | cons st rest ih =>
    obtain ⟨v, hv, hne⟩ := h st (by simp)
    simp only [resolveLoop, hv, hne]
    simp only [Bool.false_eq_true, if_false]
    exact ih (fun st2 h2 => h st2 (by simp [h2]))

/-!  Lemmas about the sensor-values loop. -/

theorem selectValue_ok_truthy {sd : Option J} {v : J}
    (h : selectValue sd = Except.ok v) : pyTruthy v = true := by
  unfold selectValue at h
  cases h1 : getItemO sd "values" with
  | error e => rw [h1] at h; cases h
  | ok vs =>
    simp only [h1] at h
    cases h2 : getIdx vs 0 with
    | error e => rw [h2] at h; cases h
    | ok e0 =>
      simp only [h2] at h
      cases h3 : getItem e0 "value" with
      | error e => rw [h3] at h; cases h
      | ok v0 =>
        simp only [h3] at h
        by_cases h4 : pyTruthy v0 = true
        · rw [if_pos h4] at h
          cases h
          exact h4
        · rw [if_neg h4] at h
          cases h5 : getIdx vs 1 with
          | error e => rw [h5] at h; cases h
          | ok e1 =>
            simp only [h5] at h
            cases h6 : getItem e1 "value" with
            | error e => rw [h6] at h; cases h
            | ok v1 =>
              simp only [h6] at h
              by_cases h7 : pyTruthy v1 = true
              · rw [if_pos h7] at h
                cases h
                exact h7
              · rw [if_neg h7] at h; cases h

theorem valuesLoop_cons_aqi (env : Env) (rest : List JKey) (d : Data) :
    valuesLoop env (JKey.kstr "AQI" :: rest) d = valuesLoop env rest d := by
  simp [valuesLoop]

theorem valuesLoop_cons_ok (env : Env) {k : JKey} (hA : ¬k = JKey.kstr "AQI")
    {d : Data} {entry : Entry} {sid : J} {sdO : Option J} {v : J}
    (h1 : dataGet d k = .ok entry)
    (h2 : entryGet entry "id" = .ok sid)
    (h3 : asyncGet (env.sensor sid) = .ok sdO)
    (h4 : selectValue sdO = .ok v)
    (rest : List JKey) :
    valuesLoop env (k :: rest) d
      = valuesLoop env rest (dataSet d k (entrySet entry "value" v)) := by
  simp only [valuesLoop, if_neg hA, h1, h2, h3, h4]

theorem valuesLoop_ok_inv (env : Env) {k : JKey} {rest : List JKey} {d d2 : Data}
    (hA : ¬k = JKey.kstr "AQI")
    (h : valuesLoop env (k :: rest) d = (d2, .ok)) :
    ∃ entry sid sdO v,
      dataGet d k = .ok entry ∧ entryGet entry "id" = .ok sid
      ∧ asyncGet (env.sensor sid) = .ok sdO ∧ selectValue sdO = .ok v
      ∧ valuesLoop env rest (dataSet d k (entrySet entry "value" v)) = (d2, .ok) := by
  simp only [valuesLoop, if_neg hA] at h
  cases h1 : dataGet d k with
  | error e => simp only [h1] at h; simp at h
  | ok entry =>
    simp only [h1] at h
    cases h2 : entryGet entry "id" with
    | error e => simp only [h2] at h; simp at h
    | ok sid =>
      simp only [h2] at h
      cases h3 : asyncGet (env.sensor sid) with
      | error u => simp only [h3] at h; simp at h
      | ok sdO =>
        simp only [h3] at h
        cases h4 : selectValue sdO with
        | error e =>
          simp only [h4] at h
          by_cases hc : caughtAtValues e = true
          · simp [hc] at h
          · simp [hc] at h
        | ok v =>
          simp only [h4, h1] at h
          exact ⟨entry, sid, sdO, v, rfl, h2, h3, h4, h⟩

theorem valuesLoop_append (env : Env) (ks1 ks2 : List JKey) :
    ∀ d, valuesLoop env (ks1 ++ ks2) d
      = match valuesLoop env ks1 d with
        | (d1, .ok) => valuesLoop env ks2 d1
        | other => other := by
  induction ks1 with
  | nil => intro d; rfl
  | cons k rest ih =>
    intro d
    by_cases hA : k = JKey.kstr "AQI"
    · subst hA
      rw [List.cons_append, valuesLoop_cons_aqi, valuesLoop_cons_aqi, ih]
    · rw [List.cons_append]
      simp only [valuesLoop, if_neg hA]
      cases h1 : dataGet d k with
      | error e => simp only [h1]
      | ok entry =>
        simp only [h1]
        cases h2 : entryGet entry "id" with
        | error e => simp only [h2]
        | ok sid =>
          simp only [h2]
          cases h3 : asyncGet (env.sensor sid) with
          | error u => simp only [h3]
          | ok sdO =>
            simp only [h3]
            cases h4 : selectValue sdO with
            | error e =>
              simp only [h4]
              by_cases hc : caughtAtValues e = true
              · simp [hc]
              · simp [hc]
            | ok v =>
              simp only [h4]
              exact ih (dataSet d k (entrySet entry "value" v))

theorem valuesLoop_trail (env : Env) (ks : List JKey) (t : Data) :
    ∀ d d2, valuesLoop env ks d = (d2, .ok) →
      valuesLoop env ks (d ++ t) = (d2 ++ t, .ok) := by
  induction ks with
  | nil =>
    intro d d2 h
    cases h
    rfl
  | cons k rest ih =>
    intro d d2 h
    by_cases hA : k = JKey.kstr "AQI"
    · subst hA
      rw [valuesLoop_cons_aqi] at h
      rw [valuesLoop_cons_aqi]
      exact ih d d2 h
    · obtain ⟨entry, sid, sdO, v, h1, h2, h3, h4, h5⟩ := valuesLoop_ok_inv env hA h
      have hmem : k ∈ dataKeys d := by
        rw [dataGet_eq] at h1
        cases hg : dataGetO d k with
        | none => rw [hg] at h1; cases h1
        | some e0 => exact mem_dataKeys_of_dataGetO hg
      have h1t : dataGet (d ++ t) k = .ok entry := by
        rw [dataGet_eq, dataGetO_append_left hmem, ← dataGet_eq]
        exact h1
      rw [valuesLoop_cons_ok env hA h1t h2 h3 h4]
      rw [dataSet_append_left hmem]
      exact ih _ _ h5

theorem valuesLoop_untouched (env : Env) (ks : List JKey) :
    ∀ d d2, valuesLoop env ks d = (d2, .ok) →
      ∀ k, k ∉ ks → dataGetO d2 k = dataGetO d k := by
  induction ks with
  | nil =>
    intro d d2 h k _
    cases h
    rfl
  | cons k0 rest ih =>
    intro d d2 h k hk
    rw [List.mem_cons, not_or] at hk
    by_cases hA : k0 = JKey.kstr "AQI"
    · subst hA
      rw [valuesLoop_cons_aqi] at h
      exact ih d d2 h k hk.2
    · obtain ⟨entry, sid, sdO, v, h1, h2, h3, h4, h5⟩ := valuesLoop_ok_inv env hA h
      rw [ih _ _ h5 k hk.2]
      exact dataGetO_dataSet_ne _ _ _ _ hk.1

theorem valuesLoop_keys (env : Env) (ks : List JKey) :
    ∀ d d2, valuesLoop env ks d = (d2, .ok) → dataKeys d2 = dataKeys d := by
  induction ks with
  | nil =>
    intro d d2 h
    cases h
    rfl
  | cons k0 rest ih =>
    intro d d2 h
    by_cases hA : k0 = JKey.kstr "AQI"
    · subst hA
      rw [valuesLoop_cons_aqi] at h
      exact ih d d2 h
    · obtain ⟨entry, sid, sdO, v, h1, h2, h3, h4, h5⟩ := valuesLoop_ok_inv env hA h
      have hmem : k0 ∈ dataKeys d := by
        rw [dataGet_eq] at h1
        cases hg : dataGetO d k0 with
        | none => rw [hg] at h1; cases h1
        | some e0 => exact mem_dataKeys_of_dataGetO hg
      rw [ih _ _ h5, dataKeys_dataSet_mem _ _ _ hmem]

theorem valuesLoop_sets_value (env : Env) (ks : List JKey) (hnd : ks.Nodup) :
    ∀ d d2, valuesLoop env ks d = (d2, .ok) →
      ∀ k ∈ ks, ¬k = JKey.kstr "AQI" →
        ∃ e v, dataGetO d2 k = some e ∧ entryGetO e "value" = some v ∧ pyTruthy v = true := by
  induction ks with
  | nil =>
    intro d d2 _ k hk
    cases hk
  | cons k0 rest ih =>
    intro d d2 h k hk hA
    rw [List.nodup_cons] at hnd
    by_cases hA0 : k0 = JKey.kstr "AQI"
    · subst hA0
      rw [valuesLoop_cons_aqi] at h
      have hk2 : k ∈ rest := by
        rcases List.mem_cons.1 hk with hh | hh
        · exact absurd hh hA
        · exact hh
      exact ih hnd.2 d d2 h k hk2 hA
    · obtain ⟨entry, sid, sdO, v, h1, h2, h3, h4, h5⟩ := valuesLoop_ok_inv env hA0 h
      rcases List.mem_cons.1 hk with hh | hh
      · subst hh
        have hun := valuesLoop_untouched env rest _ _ h5 k hnd.1
        rw [dataGetO_dataSet_self] at hun
        exact ⟨entrySet entry "value" v, v, hun, entryGetO_entrySet_self _ _ _,
          selectValue_ok_truthy h4⟩
      · exact ih hnd.2 _ _ h5 k hh hA

theorem valuesLoop_sets_value_entry (env : Env) (ks : List JKey) (hnd : ks.Nodup) :
    ∀ d d2, valuesLoop env ks d = (d2, .ok) →
      ∀ k ∈ ks, ¬k = JKey.kstr "AQI" →
        ∃ e v, dataGetO d k = some e ∧ pyTruthy v = true
          ∧ dataGetO d2 k = some (entrySet e "value" v) := by
  induction ks with
  | nil =>
    intro d d2 _ k hk
    cases hk
  | cons k0 rest ih =>
    intro d d2 h k hk hA
    rw [List.nodup_cons] at hnd
    by_cases hA0 : k0 = JKey.kstr "AQI"
    · subst hA0
      rw [valuesLoop_cons_aqi] at h
      have hk2 : k ∈ rest := (List.mem_cons.1 hk).resolve_left hA
      exact ih hnd.2 d d2 h k hk2 hA
    · obtain ⟨entry, sid, sdO, v, h1, h2, h3, h4, h5⟩ := valuesLoop_ok_inv env hA0 h
      rcases List.mem_cons.1 hk with hh | hh
      · subst hh
        have hun := valuesLoop_untouched env rest _ _ h5 k hnd.1
        rw [dataGetO_dataSet_self] at hun
        have hent : dataGetO d k = some entry := by
          rw [dataGet_eq] at h1
          cases hg : dataGetO d k with
          | none => rw [hg] at h1; cases h1
          | some e0 =>
            rw [hg] at h1
            cases h1
            rfl
        exact ⟨entry, v, hent, selectValue_ok_truthy h4, hun⟩
      · obtain ⟨e, v2, he, hv2, he2⟩ := ih hnd.2 _ _ h5 k hh hA
        refine ⟨e, v2, ?_, hv2, he2⟩
        rw [← he]
        exact (dataGetO_dataSet_ne _ _ _ _ (fun hkk => hnd.1 (by rw [← hkk]; exact hh))).symm

/-!  Lemmas about the index-levels loop. -/

theorem indexesLoop_cons_aqi (idx : Option J) (rest : List JKey) (d : Data) :
    indexesLoop idx (JKey.kstr "AQI" :: rest) d = indexesLoop idx rest d := by
  simp [indexesLoop]

theorem indexesLoop_cons_ok (idx : Option J) {k : JKey} (hA : ¬k = JKey.kstr "AQI")
    {d : Data} {low : String} {lvl nm : J} {lnm : String} {entry : Entry}
    (h1 : pyLowerS (jOfKey k) = .ok low)
    (h2 : getItemO idx (indexLevelKey low) = .ok lvl)
    (h3 : getItem lvl "indexLevelName" = .ok nm)
    (h4 : pyLowerS nm = .ok lnm)
    (h5 : dataGet d k = .ok entry)
    (rest : List JKey) :
    indexesLoop idx (k :: rest) d
      = indexesLoop idx rest (dataSet d k (entrySet entry "index" (J.str lnm))) := by
  simp only [indexesLoop, if_neg hA, h1, h2, h3, h4, h5]

theorem indexesLoop_none_inv (idx : Option J) {k : JKey} {rest : List JKey} {d d2 : Data}
    (hA : ¬k = JKey.kstr "AQI")
    (h : indexesLoop idx (k :: rest) d = (d2, none)) :
    ∃ low lvl nm lnm entry,
      pyLowerS (jOfKey k) = .ok low
      ∧ getItemO idx (indexLevelKey low) = .ok lvl
      ∧ getItem lvl "indexLevelName" = .ok nm
      ∧ pyLowerS nm = .ok lnm
      ∧ dataGet d k = .ok entry
      ∧ indexesLoop idx rest (dataSet d k (entrySet entry "index" (J.str lnm))) = (d2, none) := by
  simp only [indexesLoop, if_neg hA] at h
  cases h1 : pyLowerS (jOfKey k) with
  | error e => simp only [h1] at h; simp at h
  | ok low =>
    simp only [h1] at h
    cases h2 : getItemO idx (indexLevelKey low) with
    | error e => simp only [h2] at h; simp at h
    | ok lvl =>
      simp only [h2] at h
      cases h3 : getItem lvl "indexLevelName" with
      | error e => simp only [h3] at h; simp at h
      | ok nm =>
        simp only [h3] at h
        cases h4 : pyLowerS nm with
        | error e => simp only [h4] at h; simp at h
        | ok lnm =>
          simp only [h4] at h
          cases h5 : dataGet d k with
          | error e => simp only [h5] at h; simp at h
          | ok entry =>
            simp only [h5] at h
            exact ⟨low, lvl, nm, lnm, entry, rfl, h2, h3, h4, rfl, h⟩

theorem indexesLoop_append (idx : Option J) (ks1 ks2 : List JKey) :
    ∀ d, indexesLoop idx (ks1 ++ ks2) d
      = match indexesLoop idx ks1 d with
        | (d1, none) => indexesLoop idx ks2 d1
        | other => other := by
  induction ks1 with
  | nil => intro d; rfl
  | cons k rest ih =>
    intro d
    by_cases hA : k = JKey.kstr "AQI"
    · subst hA
      rw [List.cons_append, indexesLoop_cons_aqi, indexesLoop_cons_aqi, ih]
    · rw [List.cons_append]
      simp only [indexesLoop, if_neg hA]
      cases h1 : pyLowerS (jOfKey k) with
      | error e => simp only [h1]
      | ok low =>
        simp only [h1]
        cases h2 : getItemO idx (indexLevelKey low) with
        | error e => simp only [h2]
        | ok lvl =>
          simp only [h2]
          cases h3 : getItem lvl "indexLevelName" with
          | error e => simp only [h3]
          | ok nm =>
            simp only [h3]
            cases h4 : pyLowerS nm with
            | error e => simp only [h4]
            | ok lnm =>
              simp only [h4]
              cases h5 : dataGet d k with
              | error e => simp only [h5]
              | ok entry =>
                simp only [h5]
                exact ih (dataSet d k (entrySet entry "index" (J.str lnm)))

theorem indexesLoop_trail (idx : Option J) (ks : List JKey) (t : Data) :
    ∀ d d2, indexesLoop idx ks d = (d2, none) →
      indexesLoop idx ks (d ++ t) = (d2 ++ t, none) := by
  induction ks with
  | nil =>
    intro d d2 h
    cases h
    rfl
  | cons k rest ih =>
    intro d d2 h
    by_cases hA : k = JKey.kstr "AQI"
    · subst hA
      rw [indexesLoop_cons_aqi] at h
      rw [indexesLoop_cons_aqi]
      exact ih d d2 h
    · obtain ⟨low, lvl, nm, lnm, entry, h1, h2, h3, h4, h5, h6⟩ := indexesLoop_none_inv idx hA h
      have hmem : k ∈ dataKeys d := by
        rw [dataGet_eq] at h5
        cases hg : dataGetO d k with
        | none => rw [hg] at h5; cases h5
        | some e0 => exact mem_dataKeys_of_dataGetO hg
      have h5t : dataGet (d ++ t) k = .ok entry := by
        rw [dataGet_eq, dataGetO_append_left hmem, ← dataGet_eq]
        exact h5
      rw [indexesLoop_cons_ok idx hA h1 h2 h3 h4 h5t]
      rw [dataSet_append_left hmem]
      exact ih _ _ h6

theorem indexesLoop_untouched (idx : Option J) (ks : List JKey) :
    ∀ d d2, indexesLoop idx ks d = (d2, none) →
      ∀ k, k ∉ ks → dataGetO d2 k = dataGetO d k := by
  induction ks with
  | nil =>
    intro d d2 h k _
    cases h
    rfl
  | cons k0 rest ih =>
    intro d d2 h k hk
    rw [List.mem_cons, not_or] at hk
    by_cases hA : k0 = JKey.kstr "AQI"
    · subst hA
      rw [indexesLoop_cons_aqi] at h
      exact ih d d2 h k hk.2
    · obtain ⟨low, lvl, nm, lnm, entry, h1, h2, h3, h4, h5, h6⟩ := indexesLoop_none_inv idx hA h
      rw [ih _ _ h6 k hk.2]
      exact dataGetO_dataSet_ne _ _ _ _ hk.1

theorem indexesLoop_keys (idx : Option J) (ks : List JKey) :
    ∀ d d2, indexesLoop idx ks d = (d2, none) → dataKeys d2 = dataKeys d := by
  induction ks with
  | nil =>
    intro d d2 h
    cases h
    rfl
  | cons k0 rest ih =>
    intro d d2 h
    by_cases hA : k0 = JKey.kstr "AQI"
    · subst hA
      rw [indexesLoop_cons_aqi] at h
      exact ih d d2 h
    · obtain ⟨low, lvl, nm, lnm, entry, h1, h2, h3, h4, h5, h6⟩ := indexesLoop_none_inv idx hA h
      have hmem : k0 ∈ dataKeys d := by
        rw [dataGet_eq] at h5
        cases hg : dataGetO d k0 with
        | none => rw [hg] at h5; cases h5
        | some e0 => exact mem_dataKeys_of_dataGetO hg
      rw [ih _ _ h6, dataKeys_dataSet_mem _ _ _ hmem]

theorem indexesLoop_sets_index (idx : Option J) (ks : List JKey) (hnd : ks.Nodup) :
    ∀ d d2, indexesLoop idx ks d = (d2, none) →
      ∀ k ∈ ks, ¬k = JKey.kstr "AQI" →
        ∃ e lnm, dataGetO d k = some e
          ∧ dataGetO d2 k = some (entrySet e "index" (J.str lnm)) := by
  induction ks with
  | nil =>
    intro d d2 _ k hk
    cases hk
  | cons k0 rest ih =>
    intro d d2 h k hk hA
    rw [List.nodup_cons] at hnd
    by_cases hA0 : k0 = JKey.kstr "AQI"
    · subst hA0
      rw [indexesLoop_cons_aqi] at h
      have hk2 : k ∈ rest := by
        rcases List.mem_cons.1 hk with hh | hh
        · exact absurd hh hA
        · exact hh
      exact ih hnd.2 d d2 h k hk2 hA
    · obtain ⟨low, lvl, nm, lnm, entry, h1, h2, h3, h4, h5, h6⟩ := indexesLoop_none_inv idx hA0 h
      rcases List.mem_cons.1 hk with hh | hh
      · subst hh
        have hun := indexesLoop_untouched idx rest _ _ h6 k hnd.1
        rw [dataGetO_dataSet_self] at hun
        have hent : dataGetO d k = some entry := by
          rw [dataGet_eq] at h5
          cases hg : dataGetO d k with
          | none => rw [hg] at h5; cases h5
          | some e0 =>
            rw [hg] at h5
            cases h5
            rfl
        exact ⟨entry, lnm, hent, hun⟩
      · obtain ⟨e, lnm2, he, he2⟩ := ih hnd.2 _ _ h6 k hh hA
        refine ⟨e, lnm2, ?_, he2⟩
        rw [← he]
        exact (dataGetO_dataSet_ne _ _ _ _ (fun hkk => hnd.1 (by rw [← hkk]; exact hh))).symm

/-!  Phase-level lemmas. -/

theorem phase1_of_truthy (env : Env) {s : GiosState} (h : pyTruthy s.station_name = true) :
    phase1 env s = (s, .ok) := by
  unfold phase1
  simp [h]

theorem update_of_truthy (env : Env) {s : GiosState} (h : pyTruthy s.station_name = true) :
    update env s = updateTail env s := by
  unfold update
  rw [phase1_of_truthy env h]

theorem phase1_ret_inv (env : Env) {s s2 : GiosState} (h : phase1 env s = (s2, .ret)) :
    s2 = s ∧ pyTruthy s.station_name = false
    ∧ (asyncGet env.stations = .ok none
       ∨ ∃ stJ, asyncGet env.stations = .ok (some stJ) ∧ pyTruthy stJ = false) := by
  unfold phase1 at h
  by_cases ht : pyTruthy s.station_name = true
  · simp [ht] at h
  · rw [if_neg ht] at h
    cases ha : asyncGet env.stations with
    | error u => simp only [ha] at h; simp at h
    | ok stO =>
      cases stO with
      | none =>
        simp only [ha] at h
        refine ⟨?_, by simpa using ht, Or.inl rfl⟩
        injection h with hA hB
        exact hA.symm
      | some stJ =>
        simp only [ha] at h
        by_cases htr : pyTruthy stJ = true
        · simp only [htr, Bool.not_true, Bool.false_eq_true, if_false] at h
          cases hi : pyIter stJ with
          | error e => simp only [hi] at h; simp at h
          | ok sts =>
            simp only [hi] at h
            cases hr : resolveLoop s.station_id sts s.latitude s.longitude s.station_name with
            | mk triple exc =>
              obtain ⟨la, lo, nm⟩ := triple
              cases exc with
              | some e => simp only [hr] at h; simp at h
              | none =>
                simp only [hr] at h
                by_cases hnm : pyTruthy nm = true
                · simp [hnm] at h
                · simp [hnm] at h
        · simp only [Bool.not_eq_true] at htr
          simp only [htr, Bool.not_false, if_true] at h
          refine ⟨?_, by simpa using ht, Or.inr ⟨stJ, rfl, htr⟩⟩
          injection h with hA hB
          exact hA.symm

theorem phase1_ret_build (env : Env) {s : GiosState} (hname : pyTruthy s.station_name = false)
    (hst : asyncGet env.stations = .ok none
      ∨ ∃ stJ, asyncGet env.stations = .ok (some stJ) ∧ pyTruthy stJ = false) :
    phase1 env s = (s, .ret) := by
  unfold phase1
  rw [if_neg (by simp [hname])]
  rcases hst with hst | ⟨stJ, hst, htr⟩
  · rw [hst]
  · rw [hst]
    simp [htr]

theorem phase1_ok_inv (env : Env) {s s2 : GiosState} (h : phase1 env s = (s2, .ok)) :
    pyTruthy s2.station_name = true ∧ s2.data = s.data ∧ s2.station_id = s.station_id := by
  unfold phase1 at h
  by_cases ht : pyTruthy s.station_name = true
  · rw [if_pos ht] at h
    injection h with hA hB
    subst hA
    exact ⟨ht, rfl, rfl⟩
  · rw [if_neg ht] at h
    cases ha : asyncGet env.stations with
    | error u => simp only [ha] at h; simp at h
    | ok stO =>
      cases stO with
      | none => simp only [ha] at h; simp at h
      | some stJ =>
        simp only [ha] at h
        by_cases htr : pyTruthy stJ = true
        · simp only [htr, Bool.not_true, Bool.false_eq_true, if_false] at h
          cases hi : pyIter stJ with
          | error e => simp only [hi] at h; simp at h
          | ok sts =>
            simp only [hi] at h
            cases hr : resolveLoop s.station_id sts s.latitude s.longitude s.station_name with
            | mk triple exc =>
              obtain ⟨la, lo, nm⟩ := triple
              cases exc with
              | some e => simp only [hr] at h; simp at h
              | none =>
                simp only [hr] at h
                by_cases hnm : pyTruthy nm = true
                · simp only [hnm, Bool.not_true, Bool.false_eq_true, if_false] at h
                  injection h with hA hB
                  subst hA
                  exact ⟨hnm, rfl, rfl⟩
                · simp only [Bool.not_eq_true] at hnm
                  simp only [hnm, Bool.not_false, if_true] at h
                  simp at h
        · simp only [Bool.not_eq_true] at htr
          simp only [htr, Bool.not_false, if_true] at h
          simp at h

theorem phase2_shape (env : Env) (s : GiosState) :
    ∀ {s2 : GiosState} {o : Outcome}, phase2 env s = (s2, o) →
      ∃ d, s2 = { s with data := d } := by
  intro s2 o h
  unfold phase2 at h
  cases ha : asyncGet env.station with
  | error u =>
    simp only [ha] at h
    injection h with hA hB
    exact ⟨s.data, hA.symm⟩
  | ok sdO =>
    cases sdO with
    | none =>
      simp only [ha] at h
      injection h with hA hB
      exact ⟨[], hA.symm⟩
    | some sd =>
      simp only [ha] at h
      by_cases htr : pyTruthy sd = true
      · simp only [htr, Bool.not_true, Bool.false_eq_true, if_false] at h
        cases hi : pyIter sd with
        | error e =>
          simp only [hi] at h
          injection h with hA hB
          exact ⟨s.data, hA.symm⟩
        | ok sensors =>
          simp only [hi] at h
          cases hb : buildLoop sensors s.data with
          | mk d exc =>
            cases exc with
            | some e =>
              simp only [hb] at h
              injection h with hA hB
              exact ⟨d, hA.symm⟩
            | none =>
              simp only [hb] at h
              injection h with hA hB
              exact ⟨d, hA.symm⟩
      · simp only [Bool.not_eq_true] at htr
        simp only [htr, Bool.not_false, if_true] at h
        injection h with hA hB
        exact ⟨[], hA.symm⟩

theorem phase3_shape (env : Env) (s : GiosState) :
    ∀ {s2 : GiosState} {o : Outcome}, phase3 env s = (s2, o) →
      ∃ d, s2 = { s with data := d } := by
  intro s2 o h
  unfold phase3 at h
  cases hv : valuesLoop env (dataKeys s.data) s.data with
  | mk d o2 =>
    simp only [hv] at h
    injection h with hA hB
    exact ⟨d, hA.symm⟩

theorem phase4_shape (env : Env) (s : GiosState) :
    ∀ {s2 : GiosState} {o : Outcome}, phase4 env s = (s2, o) →
      ∃ d, s2 = { s with data := d } := by
  intro s2 o h
  unfold phase4 at h
  cases ha : asyncGet env.indexes with
  | error u =>
    simp only [ha] at h
    injection h with hA hB
    exact ⟨s.data, hA.symm⟩
  | ok idx =>
    simp only [ha] at h
    cases hi : indexesLoop idx (dataKeys s.data) s.data with
    | mk d exc =>
      cases exc with
      | some e =>
        simp only [hi] at h
        by_cases hc : caughtAtIndexes e = true
        · simp only [hc, if_true] at h
          injection h with hA hB
          exact ⟨[], hA.symm⟩
        · simp only [hc, Bool.false_eq_true, if_false] at h
          injection h with hA hB
          exact ⟨d, hA.symm⟩
      | none =>
        simp only [hi] at h
        cases hst : stLevelValue idx with
        | error e =>
          simp only [hst] at h
          by_cases hc : caughtAtIndexes e = true
          · simp only [hc, if_true] at h
            injection h with hA hB
            exact ⟨[], hA.symm⟩
          · simp only [hc, Bool.false_eq_true, if_false] at h
            injection h with hA hB
            exact ⟨_, hA.symm⟩
        | ok w =>
          simp only [hst] at h
          cases hg : dataGet (dataSet d (JKey.kstr "AQI") [("name", J.str "AQI")]) (JKey.kstr "AQI") with
          | error e =>
            simp only [hg] at h
            by_cases hc : caughtAtIndexes e = true
            · simp only [hc, if_true] at h
              injection h with hA hB
              exact ⟨[], hA.symm⟩
            · simp only [hc, Bool.false_eq_true, if_false] at h
              injection h with hA hB
              exact ⟨_, hA.symm⟩
          | ok entry =>
            simp only [hg] at h
            injection h with hA hB
            exact ⟨_, hA.symm⟩

theorem updateTail_shape (env : Env) (s : GiosState) :
    ∃ d, (updateTail env s).1 = { s with data := d } := by
  unfold updateTail
  cases h2 : phase2 env s with
  | mk s2 o2 =>
    obtain ⟨d2, hd2⟩ := phase2_shape env s h2
    subst hd2
    cases o2 with
    | ret => exact ⟨d2, by simp only [h2]⟩
    | exn u => exact ⟨d2, by simp only [h2]⟩
    | ok =>
      simp only [h2]
      cases h3 : phase3 env { s with data := d2 } with
      | mk s3 o3 =>
        obtain ⟨d3, hd3⟩ := phase3_shape env _ h3
        subst hd3
        cases o3 with
        | ret => exact ⟨d3, by simp only [h3]⟩
        | exn u => exact ⟨d3, by simp only [h3]⟩
        | ok =>
          simp only [h3]
          cases h4 : phase4 env { s with data := d3 } with
          | mk s4 o4 =>
            obtain ⟨d4, hd4⟩ := phase4_shape env _ h4
            subst hd4
            cases o4 with
            | ret => exact ⟨d4, by simp only [h4]⟩
            | exn u => exact ⟨d4, by simp only [h4]⟩
            | ok => exact ⟨d4, by simp only [h4]⟩

theorem valuesLoop_env {env1 env2 : Env} (h : env1.sensor = env2.sensor) (ks : List JKey) :
    ∀ d, valuesLoop env1 ks d = valuesLoop env2 ks d := by
  induction ks with
  | nil => intro d; rfl
  | cons k rest ih =>
    intro d
    by_cases hA : k = JKey.kstr "AQI"
    · subst hA
      rw [valuesLoop_cons_aqi, valuesLoop_cons_aqi, ih]
    · simp only [valuesLoop, if_neg hA, h]
      cases h1 : dataGet d k with
      | error e => simp only [h1]
      | ok entry =>
        simp only [h1]
        cases h2 : entryGet entry "id" with
        | error e => simp only [h2]
        | ok sid =>
          simp only [h2]
          cases h3 : asyncGet (env2.sensor sid) with
          | error u => simp only [h3]
          | ok sdO =>
            simp only [h3]
            cases h4 : selectValue sdO with
            | error e => simp only [h4]
            | ok v =>
              simp only [h4]
              exact ih (dataSet d k (entrySet entry "value" v))

theorem dataSet_append_right {d1 : Data} {k : JKey} (h : k ∉ dataKeys d1) (d2 : Data) (e : Entry) :
    dataSet (d1 ++ d2) k e = d1 ++ dataSet d2 k e := by
  induction d1 with
  | nil => rfl
  | cons p rest ih =>
    obtain ⟨k1, e1⟩ := p
    rw [dataKeys_cons, List.mem_cons, not_or] at h
    obtain ⟨h1, h2⟩ := h
    simp [dataSet, Ne.symm h1, ih h2]

theorem giosState_eta {s : GiosState} {d : Data} (h : s.data = d) :
    { s with data := d } = s := by
  cases s
  cases h
  rfl

theorem pyTruthy_ne_null {v : J} (h : pyTruthy v = true) : v ≠ J.null := by
  intro hv
  subst hv
  cases h

theorem valuesLoop_ret (env : Env) (ks : List JKey) :
    ∀ d d2, valuesLoop env ks d = (d2, .ret) → d2 = [] := by
  induction ks with
  | nil =>
    intro d d2 h
    cases h
  | cons k rest ih =>
    intro d d2 h
    by_cases hA : k = JKey.kstr "AQI"
    · subst hA
      rw [valuesLoop_cons_aqi] at h
      exact ih d d2 h
    · simp only [valuesLoop, if_neg hA] at h
      cases h1 : dataGet d k with
      | error e => simp only [h1] at h; simp at h
      | ok entry =>
        simp only [h1] at h
        cases h2 : entryGet entry "id" with
        | error e => simp only [h2] at h; simp at h
        | ok sid =>
          simp only [h2] at h
          cases h3 : asyncGet (env.sensor sid) with
          | error u => simp only [h3] at h; simp at h
          | ok sdO =>
            simp only [h3] at h
            cases h4 : selectValue sdO with
            | error e =>
              simp only [h4] at h
              by_cases hc : caughtAtValues e = true
              · simp only [hc, if_true] at h
                injection h with hA2 hB2
                exact hA2.symm
              · simp only [hc, Bool.false_eq_true, if_false] at h
                simp at h
            | ok v =>
              simp only [h4, h1] at h
              exact ih _ _ h

theorem phase2_ret_inv (env : Env) {s s2 : GiosState} (h : phase2 env s = (s2, .ret)) :
    s2 = { s with data := [] }
    ∧ ∀ s3, phase2 env s3 = ({ s3 with data := [] }, .ret) := by
  unfold phase2 at h
  cases ha : asyncGet env.station with
  | error u => simp only [ha] at h; simp at h
  | ok sdO =>
    cases sdO with
    | none =>
      simp only [ha] at h
      injection h with hA hB
      exact ⟨hA.symm, fun s3 => by unfold phase2; rw [ha]⟩
    | some sd =>
      simp only [ha] at h
      by_cases htr : pyTruthy sd = true
      · simp only [htr, Bool.not_true, Bool.false_eq_true, if_false] at h
        cases hi : pyIter sd with
        | error e => simp only [hi] at h; simp at h
        | ok sensors =>
          simp only [hi] at h
          cases hb : buildLoop sensors s.data with
          | mk d exc =>
            cases exc with
            | some e => simp only [hb] at h; simp at h
            | none => simp only [hb] at h; simp at h
      · simp only [Bool.not_eq_true] at htr
        simp only [htr, Bool.not_false, if_true] at h
        injection h with hA hB
        refine ⟨hA.symm, fun s3 => ?_⟩
        unfold phase2
        rw [ha]
        simp [htr]

theorem phase2_ok_inv (env : Env) {s s2 : GiosState} (h : phase2 env s = (s2, .ok)) :
    ∃ sd sensors d2, asyncGet env.station = .ok (some sd) ∧ pyTruthy sd = true
      ∧ pyIter sd = .ok sensors ∧ buildLoop sensors s.data = (d2, none)
      ∧ s2 = { s with data := d2 } := by
  unfold phase2 at h
  cases ha : asyncGet env.station with
  | error u => simp only [ha] at h; simp at h
  | ok sdO =>
    cases sdO with
    | none => simp only [ha] at h; simp at h
    | some sd =>
      simp only [ha] at h
      by_cases htr : pyTruthy sd = true
      · simp only [htr, Bool.not_true, Bool.false_eq_true, if_false] at h
        cases hi : pyIter sd with
        | error e => simp only [hi] at h; simp at h
        | ok sensors =>
          simp only [hi] at h
          cases hb : buildLoop sensors s.data with
          | mk d exc =>
            cases exc with
            | some e => simp only [hb] at h; simp at h
            | none =>
              simp only [hb] at h
              injection h with hA hB
              exact ⟨sd, sensors, d, rfl, htr, hi, hb, hA.symm⟩
      · simp only [Bool.not_eq_true] at htr
        simp only [htr, Bool.not_false, if_true] at h
        simp at h

theorem phase2_ok_build (env : Env) (s : GiosState) {sd : J} {sensors : List J} {d2 : Data}
    (h1 : asyncGet env.station = .ok (some sd)) (h2 : pyTruthy sd = true)
    (h3 : pyIter sd = .ok sensors) (h4 : buildLoop sensors s.data = (d2, none)) :
    phase2 env s = ({ s with data := d2 }, .ok) := by
  unfold phase2
  rw [h1]
  simp only [h2, Bool.not_true, Bool.false_eq_true, if_false, h3, h4]

theorem phase3_ok_inv (env : Env) {s s2 : GiosState} (h : phase3 env s = (s2, .ok)) :
    ∃ d3, valuesLoop env (dataKeys s.data) s.data = (d3, .ok)
      ∧ s2 = { s with data := d3 } := by
  unfold phase3 at h
  cases hv : valuesLoop env (dataKeys s.data) s.data with
  | mk d o2 =>
    simp only [hv] at h
    injection h with hA hB
    subst hB
    exact ⟨d, rfl, hA.symm⟩

theorem phase3_ok_build (env : Env) (s : GiosState) {d3 : Data}
    (h : valuesLoop env (dataKeys s.data) s.data = (d3, .ok)) :
    phase3 env s = ({ s with data := d3 }, .ok) := by
  unfold phase3
  rw [h]

theorem phase3_ret_inv (env : Env) {s s2 : GiosState} (h : phase3 env s = (s2, .ret)) :
    s2 = { s with data := [] } := by
  unfold phase3 at h
  cases hv : valuesLoop env (dataKeys s.data) s.data with
  | mk d o2 =>
    simp only [hv] at h
    injection h with hA hB
    subst hB
    rw [valuesLoop_ret env (dataKeys s.data) s.data d hv] at hA
    exact hA.symm

theorem phase4_ok_inv (env : Env) {s s2 : GiosState} (h : phase4 env s = (s2, .ok)) :
    ∃ idx dI w, asyncGet env.indexes = .ok idx
      ∧ indexesLoop idx (dataKeys s.data) s.data = (dI, none)
      ∧ stLevelValue idx = .ok w
      ∧ s2 = { s with data := dataSet dI (JKey.kstr "AQI") [("name", J.str "AQI"), ("value", J.str w)] } := by
  unfold phase4 at h
  cases ha : asyncGet env.indexes with
  | error u => simp only [ha] at h; simp at h
  | ok idx =>
    simp only [ha] at h
    cases hi : indexesLoop idx (dataKeys s.data) s.data with
    | mk d exc =>
      cases exc with
      | some e =>
        simp only [hi] at h
        by_cases hc : caughtAtIndexes e = true
        · simp only [hc, if_true] at h; simp at h
        · simp only [hc, Bool.false_eq_true, if_false] at h; simp at h
      | none =>
        simp only [hi] at h
        cases hst : stLevelValue idx with
        | error e =>
          simp only [hst] at h
          by_cases hc : caughtAtIndexes e = true
          · simp only [hc, if_true] at h; simp at h
          · simp only [hc, Bool.false_eq_true, if_false] at h; simp at h
        | ok w =>
          simp only [hst] at h
          have hg : dataGet (dataSet d (JKey.kstr "AQI") [("name", J.str "AQI")])
              (JKey.kstr "AQI") = .ok [("name", J.str "AQI")] := by
            rw [dataGet_eq, dataGetO_dataSet_self]
          simp only [hg] at h
          injection h with hA hB
          refine ⟨idx, d, w, rfl, hi, hst, ?_⟩
          rw [← hA]
          have : entrySet [("name", J.str "AQI")] "value" (J.str w)
              = [("name", J.str "AQI"), ("value", J.str w)] := rfl
          rw [this, dataSet_dataSet_same]

theorem phase4_ok_build (env : Env) (s : GiosState) {idx : Option J} {dI : Data} {w : String}
    (h1 : asyncGet env.indexes = .ok idx)
    (h2 : indexesLoop idx (dataKeys s.data) s.data = (dI, none))
    (h3 : stLevelValue idx = .ok w) :
    phase4 env s = ({ s with data := dataSet dI (JKey.kstr "AQI") [("name", J.str "AQI"), ("value", J.str w)] }, .ok) := by
  unfold phase4
  rw [h1]
  simp only [h2, h3]
  have hg : dataGet (dataSet dI (JKey.kstr "AQI") [("name", J.str "AQI")])
      (JKey.kstr "AQI") = .ok [("name", J.str "AQI")] := by
    rw [dataGet_eq, dataGetO_dataSet_self]
  simp only [hg]
  have : entrySet [("name", J.str "AQI")] "value" (J.str w)
      = [("name", J.str "AQI"), ("value", J.str w)] := rfl
  rw [this, dataSet_dataSet_same]

theorem phase4_ret_inv (env : Env) {s s2 : GiosState} (h : phase4 env s = (s2, .ret)) :
    s2 = { s with data := [] } := by
  unfold phase4 at h
  cases ha : asyncGet env.indexes with
  | error u => simp only [ha] at h; simp at h
  | ok idx =>
    simp only [ha] at h
    cases hi : indexesLoop idx (dataKeys s.data) s.data with
    | mk d exc =>
      cases exc with
      | some e =>
        simp only [hi] at h
        by_cases hc : caughtAtIndexes e = true
        · simp only [hc, if_true] at h
          injection h with hA hB
          exact hA.symm
        · simp only [hc, Bool.false_eq_true, if_false] at h; simp at h
      | none =>
        simp only [hi] at h
        cases hst : stLevelValue idx with
        | error e =>
          simp only [hst] at h
          by_cases hc : caughtAtIndexes e = true
          · simp only [hc, if_true] at h
            injection h with hA hB
            exact hA.symm
          · simp only [hc, Bool.false_eq_true, if_false] at h; simp at h
        | ok w =>
          simp only [hst] at h
          have hg : dataGet (dataSet d (JKey.kstr "AQI") [("name", J.str "AQI")])
              (JKey.kstr "AQI") = .ok [("name", J.str "AQI")] := by
            rw [dataGet_eq, dataGetO_dataSet_self]
          simp only [hg] at h
          simp at h

theorem updateTail_of_phases {env : Env} {s s2 s3 s4 : GiosState}
    (h2 : phase2 env s = (s2, .ok)) (h3 : phase3 env s2 = (s3, .ok))
    (h4 : phase4 env s3 = (s4, .ok)) : updateTail env s = (s4, none) := by
  unfold updateTail
  simp only [h2, h3, h4]

theorem updateTail_ret2 {env : Env} {s s2 : GiosState} (h : phase2 env s = (s2, .ret)) :
    updateTail env s = (s2, none) := by
  unfold updateTail
  simp only [h]

theorem updateTail_exn2 {env : Env} {s s2 : GiosState} {u : UErr}
    (h : phase2 env s = (s2, .exn u)) : updateTail env s = (s2, some u) := by
  unfold updateTail
  simp only [h]

theorem updateTail_ret3 {env : Env} {s s2 s3 : GiosState}
    (h2 : phase2 env s = (s2, .ok)) (h3 : phase3 env s2 = (s3, .ret)) :
    updateTail env s = (s3, none) := by
  unfold updateTail
  simp only [h2, h3]

theorem updateTail_exn3 {env : Env} {s s2 s3 : GiosState} {u : UErr}
    (h2 : phase2 env s = (s2, .ok)) (h3 : phase3 env s2 = (s3, .exn u)) :
    updateTail env s = (s3, some u) := by
  unfold updateTail
  simp only [h2, h3]

theorem updateTail_ret4 {env : Env} {s s2 s3 s4 : GiosState}
    (h2 : phase2 env s = (s2, .ok)) (h3 : phase3 env s2 = (s3, .ok))
    (h4 : phase4 env s3 = (s4, .ret)) : updateTail env s = (s4, none) := by
  unfold updateTail
  simp only [h2, h3, h4]

theorem updateTail_exn4 {env : Env} {s s2 s3 s4 : GiosState} {u : UErr}
    (h2 : phase2 env s = (s2, .ok)) (h3 : phase3 env s2 = (s3, .ok))
    (h4 : phase4 env s3 = (s4, .exn u)) : updateTail env s = (s4, some u) := by
  unfold updateTail
  simp only [h2, h3, h4]

theorem updateTail_success_inv (env : Env) (s : GiosState)
    (hok : (updateTail env s).2 = none)
    (hne : (updateTail env s).1.data ≠ []) :
    ∃ sd sensors d2 d3 idx dI w,
      asyncGet env.station = .ok (some sd)
      ∧ pyTruthy sd = true
      ∧ pyIter sd = .ok sensors
      ∧ buildLoop sensors s.data = (d2, none)
      ∧ valuesLoop env (dataKeys d2) d2 = (d3, .ok)
      ∧ asyncGet env.indexes = .ok idx
      ∧ indexesLoop idx (dataKeys d3) d3 = (dI, none)
      ∧ stLevelValue idx = .ok w
      ∧ updateTail env s = ({ s with data := dataSet dI (JKey.kstr "AQI") [("name", J.str "AQI"), ("value", J.str w)] }, none) := by
  cases h2 : phase2 env s with
  | mk s2 o2 =>
    cases o2 with
    | ret =>
      rw [updateTail_ret2 h2] at hne
      obtain ⟨hs2, _⟩ := phase2_ret_inv env h2
      rw [hs2] at hne
      exact absurd rfl hne
    | exn u =>
      rw [updateTail_exn2 h2] at hok
      simp at hok
    | ok =>
      obtain ⟨sd, sensors, d2, ha, htr, hi, hb, hs2⟩ := phase2_ok_inv env h2
      subst hs2
      cases h3 : phase3 env { s with data := d2 } with
      | mk s3 o3 =>
        cases o3 with
        | ret =>
          rw [updateTail_ret3 h2 h3] at hne
          rw [phase3_ret_inv env h3] at hne
          exact absurd rfl hne
        | exn u =>
          rw [updateTail_exn3 h2 h3] at hok
          simp at hok
        | ok =>
          obtain ⟨d3, hv, hs3⟩ := phase3_ok_inv env h3
          subst hs3
          cases h4 : phase4 env { s with data := d3 } with
          | mk s4 o4 =>
            cases o4 with
            | ret =>
              rw [updateTail_ret4 h2 h3 h4] at hne
              rw [phase4_ret_inv env h4] at hne
              exact absurd rfl hne
            | exn u =>
              rw [updateTail_exn4 h2 h3 h4] at hok
              simp at hok
            | ok =>
              obtain ⟨idx, dI, w, hai, hil, hstv, hs4⟩ := phase4_ok_inv env h4
              subst hs4
              exact ⟨sd, sensors, d2, d3, idx, dI, w, ha, htr, hi, hb, hv, hai, hil, hstv,
                updateTail_of_phases h2 h3 h4⟩

theorem updateTail_env {env1 env2 : Env} (hst : env1.station = env2.station)
    (hsen : env1.sensor = env2.sensor) (hidx : env1.indexes = env2.indexes)
    (s : GiosState) : updateTail env1 s = updateTail env2 s := by
  have hp2 : ∀ s2, phase2 env1 s2 = phase2 env2 s2 := by
    intro s2; unfold phase2; rw [hst]
  have hp3 : ∀ s2, phase3 env1 s2 = phase3 env2 s2 := by
    intro s2; unfold phase3; rw [valuesLoop_env hsen]
  have hp4 : ∀ s2, phase4 env1 s2 = phase4 env2 s2 := by
    intro s2; unfold phase4; rw [hidx]
  unfold updateTail
  simp only [hp2, hp3, hp4]

/-!  Claim theorems (first batch). -/

/-- C1: the spec says that when the directory and sensor fetches
succeed but the index document lacks `"pm10IndexLevel"`, the cycle
ends with the mapping empty.  The code instead raises
`KeyError("pm10IndexLevel")` — `except (IndexError, TypeError)` does
not catch `KeyError` — and leaves the mapping partially populated: a
PM10 entry with a `value` but no `index`. -/
theorem update_missing_index_key_is_uncaught :
    (update envNoPm10 fresh1).2 = some (UErr.py (PyExc.keyError (JKey.kstr "pm10IndexLevel")))
    ∧ (update envNoPm10 fresh1).1.data
        = [(JKey.kstr "PM10",
            [("id", J.num 10), ("name", J.str "particulate matter 10"), ("value", J.num 42)])]
    ∧ (update envNoPm10 fresh1).1.data ≠ []
    ∧ (∀ e, dataGetO (update envNoPm10 fresh1).1.data (JKey.kstr "PM10") = some e →
        entryGetO e "value" = some (J.num 42) ∧ entryGetO e "index" = none) := by
  refine ⟨rfl, rfl, ?_, ?_⟩
  · have h : (update envNoPm10 fresh1).1.data
        = [(JKey.kstr "PM10",
            [("id", J.num 10), ("name", J.str "particulate matter 10"), ("value", J.num 42)])] := rfl
    rw [h]; exact List.cons_ne_nil _ _
  · intro e he
    have h : dataGetO (update envNoPm10 fresh1).1.data (JKey.kstr "PM10")
        = some [("id", J.num 10), ("name", J.str "particulate matter 10"), ("value", J.num 42)] := rfl
    rw [h] at he
    cases he
    exact ⟨rfl, rfl⟩

/-- C2 (counterexample): a non-success HTTP status on the directory
endpoint does not yield "no data"; `ApiError` — not a `ClientError` —
escapes `update`, so an exception other than `NoStationError`
propagates to the caller. -/
theorem update_bad_status_raises_apiError :
    update envBadStations fresh1 = (fresh1, some (UErr.apiError "server error"))
    ∧ ∀ sid : J, some (UErr.apiError "server error") ≠ some (UErr.noStation sid) := by
  refine ⟨rfl, ?_⟩
  intro sid h
  injection h with h2
  exact UErr.noConfusion h2

/-- C3 (counterexample): the claim says the first entry's value is
taken whenever it is present and non-null.  With values `[0, 42]` the
first entry is present and non-null (`0`), but the code selects `42`,
because the test is truthiness. -/
theorem selection_ignores_nonnull_zero :
    selectValue (some valuesZero42) = Except.ok (J.num 42)
    ∧ J.num 0 ≠ J.null
    ∧ selectValue (some valuesZero42) ≠ Except.ok (J.num 0) := by
  refine ⟨rfl, by simp, ?_⟩
  have h : selectValue (some valuesZero42) = Except.ok (J.num 42) := rfl
  rw [h]
  intro hc
  injection hc with h2
  injection h2 with h3
  norm_num at h3

/-- C3 (amended): the selection rule is by truthiness: the first
entry's value is taken when truthy, else the second entry's value when
truthy, else the cycle fails; given `[null, 42]` the cycle selects
`42` and completes, and given `[null, null]` the cycle ends normally
with the mapping cleared. -/
theorem value_selection_by_truthiness :
    (∀ v0 v1 rest, selectValue
        (some (J.obj [("values",
          J.arr (J.obj [("value", v0)] :: J.obj [("value", v1)] :: rest))]))
        = if pyTruthy v0 then Except.ok v0
          else if pyTruthy v1 then Except.ok v1
          else Except.error PyExc.valueError)
    ∧ selectValue (some valuesNull42) = Except.ok (J.num 42)
    ∧ (update envNull42 fresh1).2 = none
    ∧ dataGetO (update envNull42 fresh1).1.data (JKey.kstr "PM10")
        = some [("id", J.num 10), ("name", J.str "particulate matter 10"),
                ("value", J.num 42), ("index", J.str "good")]
    ∧ selectValue (some valuesNullNull) = Except.error PyExc.valueError
    ∧ (update envNullNull fresh1).1.data = []
    ∧ (update envNullNull fresh1).2 = none := by
  refine ⟨?_, rfl, rfl, rfl, rfl, rfl, rfl⟩
  intro v0 v1 rest
  rfl

/-- C4: the qualitative-index lookup key is the lowercased pollutant
code with all periods stripped, followed by `"IndexLevel"`; in
particular `"PM2.5"` maps to `"pm25IndexLevel"` and `"NO2"` to
`"no2IndexLevel"`. -/
theorem index_level_key_derivation :
    (∀ code : String, indexKeyOfCode code
        = String.mk ((code.data.map Char.toLower).filter (fun c => c ≠ '.')) ++ "IndexLevel")
    ∧ indexKeyOfCode "PM2.5" = "pm25IndexLevel"
    ∧ indexKeyOfCode "NO2" = "no2IndexLevel" := by
  refine ⟨?_, rfl, rfl⟩
  intro code
  show replaceDotEmpty (pyToLower code) ++ "IndexLevel" = _
  rw [replaceDotEmpty, pyToLower, replaceDotChars_eq_filter]

/-- C5: when the directory fetch succeeds but no entry's id equals the
configured station id, `update` on a fresh reader raises
`NoStationError` and the mapping stays empty. -/
theorem unmatched_station_raises_noStation (env : Env) (sid stJ : J) (sts : List J)
    (hst : env.stations = FetchResult.ok stJ)
    (htr : pyTruthy stJ = true)
    (hiter : pyIter stJ = Except.ok sts)
    (hnom : ∀ st ∈ sts, ∃ v, getItem st "id" = Except.ok v ∧ pyEqB v sid = false) :
    update env (initState sid) = (initState sid, some (UErr.noStation sid))
    ∧ (update env (initState sid)).1.data = [] := by
  have hres := resolveLoop_no_match sid sts J.null J.null J.null hnom
  have hnull : pyTruthy J.null = false := rfl
  have h1 : phase1 env (initState sid) = (initState sid, .exn (.noStation sid)) := by
    unfold phase1
    rw [hst]
    simp [initState, asyncGet, hnull, htr, hiter, hres]
  have h2 : update env (initState sid) = (initState sid, some (UErr.noStation sid)) := by
    unfold update
    rw [h1]
  exact ⟨h2, by rw [h2]; rfl⟩

/-- C5 witness: the scenario with configured id `"aa01"` against a
directory listing only station 1. -/
theorem unmatched_station_raises_noStation_witness :
    update envGood (initState (J.str "aa01"))
        = (initState (J.str "aa01"), some (UErr.noStation (J.str "aa01")))
    ∧ (update envGood (initState (J.str "aa01"))).1.data = [] :=
  unmatched_station_raises_noStation envGood (J.str "aa01") (J.arr [stDoc]) [stDoc]
    rfl rfl rfl
    (by
      intro st hstm
      rw [List.mem_singleton] at hstm
      subst hstm
      exact ⟨J.num 1, rfl, rfl⟩)

/-- C6: once a call has cached the station name (it is truthy), a
subsequent `update` call never consults the stations directory — its
result is the same for any two environments that agree on the other
three endpoints — and the cached name, latitude and longitude are left
unchanged. -/
theorem cached_station_metadata_frame (env1 env2 : Env) (s : GiosState)
    (hname : pyTruthy s.station_name = true)
    (hst : env1.station = env2.station)
    (hsen : env1.sensor = env2.sensor)
    (hidx : env1.indexes = env2.indexes) :
    update env1 s = update env2 s
    ∧ (update env1 s).1.station_name = s.station_name
    ∧ (update env1 s).1.latitude = s.latitude
    ∧ (update env1 s).1.longitude = s.longitude := by
  have h1 : update env1 s = updateTail env1 s := update_of_truthy env1 hname
  have h2 : update env2 s = updateTail env2 s := update_of_truthy env2 hname
  have he : updateTail env1 s = updateTail env2 s := updateTail_env hst hsen hidx s
  obtain ⟨d, hd⟩ := updateTail_shape env1 s
  refine ⟨by rw [h1, h2, he], ?_, ?_, ?_⟩ <;> rw [h1, hd]

/-- C6 witness: with the metadata cached, a broken directory endpoint
is irrelevant to `update`. -/
theorem cached_station_metadata_frame_witness :
    update { envGood with stations := .badStatus "boom" } cached1 = update envGood cached1
    ∧ (update { envGood with stations := .badStatus "boom" } cached1).1.station_name
        = cached1.station_name
    ∧ (update { envGood with stations := .badStatus "boom" } cached1).1.latitude
        = cached1.latitude
    ∧ (update { envGood with stations := .badStatus "boom" } cached1).1.longitude
        = cached1.longitude :=
  cached_station_metadata_frame { envGood with stations := .badStatus "boom" } envGood cached1
    rfl rfl rfl rfl

/-- C8 (counterexample): a successful refresh does not replace the
mapping wholesale.  Starting from a mapping holding a stale SO2 entry,
against a sensor list whose only pollutant code is PM10, the cycle
succeeds and the resulting key set still contains `"SO2"` — a key that
is not among this cycle's pollutant codes. -/
theorem stale_key_survives_refresh :
    (update envWithSO2 staleSO2).2 = none
    ∧ dataKeys (update envWithSO2 staleSO2).1.data
        = [JKey.kstr "SO2", JKey.kstr "PM10", JKey.kstr "AQI"]
    ∧ JKey.kstr "SO2" ∈ dataKeys (update envWithSO2 staleSO2).1.data
    ∧ pyIter sensorListDoc = Except.ok [pm10SensorDoc]
    ∧ dataKeys (buildLoop [pm10SensorDoc] []).1 = [JKey.kstr "PM10"]
    ∧ JKey.kstr "SO2" ∉ dataKeys (buildLoop [pm10SensorDoc] []).1 := by
  refine ⟨rfl, rfl, ?_, rfl, rfl, ?_⟩
  · have h : dataKeys (update envWithSO2 staleSO2).1.data
        = [JKey.kstr "SO2", JKey.kstr "PM10", JKey.kstr "AQI"] := rfl
    rw [h]
    decide
  · have h : dataKeys (buildLoop [pm10SensorDoc] []).1 = [JKey.kstr "PM10"] := rfl
    rw [h]
    decide

/-- C8 (amended): on a successful refresh the mapping is patched in
place, not replaced: its key set is exactly the union of the pre-call
keys, this cycle's pollutant codes (the keys written by the sensor-list
loop), and the overall `"AQI"` key; every entry for a cycle code is
rebuilt as `{id, name, value, index}`; and every pre-call key survives
the refresh. -/
theorem refresh_patches_mapping_in_place (env : Env) (s : GiosState)
    (hnd : (dataKeys s.data).Nodup)
    (hname : pyTruthy s.station_name = true)
    (hok : (update env s).2 = none)
    (hne : (update env s).1.data ≠ []) :
    ∃ sd sensors, asyncGet env.station = Except.ok (some sd)
      ∧ pyIter sd = Except.ok sensors
      ∧ (∀ k, k ∈ dataKeys (update env s).1.data
          ↔ k ∈ dataKeys s.data ∨ k ∈ wkeys (buildWrites sensors) ∨ k = JKey.kstr "AQI")
      ∧ (∀ k ∈ wkeys (buildWrites sensors), ¬k = JKey.kstr "AQI" →
          ∃ sid pname v lnm, pyTruthy v = true
            ∧ dataGetO (update env s).1.data k
              = some [("id", sid), ("name", pname), ("value", v), ("index", J.str lnm)])
      ∧ (∀ k ∈ dataKeys s.data, k ∈ dataKeys (update env s).1.data) := by
  rw [update_of_truthy env hname] at hok hne ⊢
  obtain ⟨sd, sensors, d2, d3, idx, dI, w, ha, htr, hi, hb, hv, hai, hil, hstv, hu⟩ :=
    updateTail_success_inv env s hok hne
  refine ⟨sd, sensors, ha, hi, ?_⟩
  rw [hu]
  have hkeys3 : dataKeys d3 = dataKeys d2 := valuesLoop_keys env (dataKeys d2) d2 d3 hv
  have hkeysI : dataKeys dI = dataKeys d3 := indexesLoop_keys idx (dataKeys d3) d3 dI hil
  rw [buildLoop_eq sensors s.data] at hb
  injection hb with hb1 hb2
  have hnd2 : (dataKeys d2).Nodup := by
    rw [← hb1]
    exact nodup_dataKeys_applyW _ _ hnd
  have hnd3 : (dataKeys d3).Nodup := by rw [hkeys3]; exact hnd2
  have hiff : ∀ k, k ∈ dataKeys (dataSet dI (JKey.kstr "AQI")
      [("name", J.str "AQI"), ("value", J.str w)])
      ↔ k ∈ dataKeys s.data ∨ k ∈ wkeys (buildWrites sensors) ∨ k = JKey.kstr "AQI" := by
    intro k
    rw [mem_dataKeys_dataSet_iff, hkeysI, hkeys3, ← hb1, mem_dataKeys_applyW]
    tauto
  refine ⟨hiff, ?_, ?_⟩
  · intro k hkw hA
    cases hw : wlook (buildWrites sensors) k with
    | none => exact absurd hw (wlook_ne_none_of_mem hkw)
    | some e0 =>
      obtain ⟨sid, pname, he0⟩ := buildWrites_shape sensors (k, e0) (wlook_mem hw)
      have he0' : e0 = [("id", sid), ("name", pname)] := he0
      have hg2 : dataGetO d2 k = some e0 := by
        rw [← hb1, dataGetO_applyW, hw]
      have hk2 : k ∈ dataKeys d2 := by
        rw [← hb1, mem_dataKeys_applyW]
        exact Or.inr hkw
      obtain ⟨e2, v, hg2b, htrv, hg3⟩ :=
        valuesLoop_sets_value_entry env (dataKeys d2) hnd2 d2 d3 hv k hk2 hA
      rw [hg2] at hg2b
      injection hg2b with he2
      have hk3 : k ∈ dataKeys d3 := by rw [hkeys3]; exact hk2
      obtain ⟨e3, lnm, hg3b, hgI⟩ :=
        indexesLoop_sets_index idx (dataKeys d3) hnd3 d3 dI hil k hk3 hA
      rw [hg3] at hg3b
      injection hg3b with he3
      refine ⟨sid, pname, v, lnm, htrv, ?_⟩
      rw [dataGetO_dataSet_ne dI (JKey.kstr "AQI") k _ hA, hgI, ← he3, ← he2, he0']
      rfl
  · intro k hk
    exact (hiff k).2 (Or.inl hk)

/-- C8 witness: the stale-SO2 scenario satisfies the amended claim. -/
theorem refresh_patches_mapping_in_place_witness :
    ∃ sd sensors, asyncGet envWithSO2.station = Except.ok (some sd)
      ∧ pyIter sd = Except.ok sensors
      ∧ (∀ k, k ∈ dataKeys (update envWithSO2 staleSO2).1.data
          ↔ k ∈ dataKeys staleSO2.data ∨ k ∈ wkeys (buildWrites sensors)
            ∨ k = JKey.kstr "AQI")
      ∧ (∀ k ∈ wkeys (buildWrites sensors), ¬k = JKey.kstr "AQI" →
          ∃ sid pname v lnm, pyTruthy v = true
            ∧ dataGetO (update envWithSO2 staleSO2).1.data k
              = some [("id", sid), ("name", pname), ("value", v), ("index", J.str lnm)])
      ∧ (∀ k ∈ dataKeys staleSO2.data, k ∈ dataKeys (update envWithSO2 staleSO2).1.data) := by
  refine refresh_patches_mapping_in_place envWithSO2 staleSO2 (by decide) rfl rfl ?_
  intro h
  have hh : dataKeys (update envWithSO2 staleSO2).1.data
      = [JKey.kstr "SO2", JKey.kstr "PM10", JKey.kstr "AQI"] := rfl
  rw [h] at hh
  cases hh

theorem updateTail_success_shape (env : Env) (s : GiosState)
    (hnd : (dataKeys s.data).Nodup)
    (hok : (updateTail env s).2 = none)
    (hne : (updateTail env s).1.data ≠ []) :
    (∀ k e, dataGetO (updateTail env s).1.data k = some e → ¬k = JKey.kstr "AQI" →
        (∃ v, entryGetO e "value" = some v ∧ v ≠ J.null)
        ∧ (∃ w2, entryGetO e "index" = some w2 ∧ w2 ≠ J.null))
    ∧ (∃ w, dataGetO (updateTail env s).1.data (JKey.kstr "AQI")
        = some [("name", J.str "AQI"), ("value", J.str w)]) := by
  obtain ⟨sd, sensors, d2, d3, idx, dI, w, ha, htr, hi, hb, hv, hai, hil, hstv, hu⟩ :=
    updateTail_success_inv env s hok hne
  simp only [hu]
  have hkeys3 : dataKeys d3 = dataKeys d2 := valuesLoop_keys env (dataKeys d2) d2 d3 hv
  have hkeysI : dataKeys dI = dataKeys d3 := indexesLoop_keys idx (dataKeys d3) d3 dI hil
  rw [buildLoop_eq sensors s.data] at hb
  injection hb with hb1 hb2
  have hnd2 : (dataKeys d2).Nodup := by
    rw [← hb1]
    exact nodup_dataKeys_applyW _ _ hnd
  have hnd3 : (dataKeys d3).Nodup := by rw [hkeys3]; exact hnd2
  constructor
  · intro k e hk hA
    have hgetI : dataGetO dI k = some e := by
      rw [← hk]
      exact (dataGetO_dataSet_ne dI (JKey.kstr "AQI") k _ hA).symm
    have hkI : k ∈ dataKeys dI := mem_dataKeys_of_dataGetO hgetI
    have hk3 : k ∈ dataKeys d3 := by rw [← hkeysI]; exact hkI
    obtain ⟨e3, lnm, he3, heI⟩ := indexesLoop_sets_index idx (dataKeys d3) hnd3 d3 dI hil k hk3 hA
    have hk2 : k ∈ dataKeys d2 := by rw [← hkeys3]; exact hk3
    obtain ⟨e3v, v, he3v, hval, htru⟩ :=
      valuesLoop_sets_value env (dataKeys d2) hnd2 d2 d3 hv k hk2 hA
    rw [he3] at he3v
    injection he3v with hee
    subst hee
    rw [hgetI] at heI
    injection heI with hee2
    subst hee2
    refine ⟨⟨v, ?_, pyTruthy_ne_null htru⟩, ⟨J.str lnm, ?_, ?_⟩⟩
    · rw [entryGetO_entrySet_ne e3 "index" "value" (J.str lnm) (by decide)]
      exact hval
    · exact entryGetO_entrySet_self _ _ _
    · intro hc
      cases hc
  · exact ⟨w, dataGetO_dataSet_self dI (JKey.kstr "AQI") _⟩

/-- C9: on every successful cycle (a call that returns normally with a
non-empty mapping), every key except `"AQI"` maps to an entry with a
non-null `value` field and a non-null `index` field, and the `"AQI"`
entry is exactly `{name: "AQI", value: <lowercased level name>}`. -/
theorem successful_mapping_fully_populated (env : Env) (s : GiosState)
    (hnd : (dataKeys s.data).Nodup)
    (hinv : pyTruthy s.station_name = true ∨ s.data = [])
    (hok : (update env s).2 = none)
    (hne : (update env s).1.data ≠ []) :
    (∀ k e, dataGetO (update env s).1.data k = some e → ¬k = JKey.kstr "AQI" →
        (∃ v, entryGetO e "value" = some v ∧ v ≠ J.null)
        ∧ (∃ w2, entryGetO e "index" = some w2 ∧ w2 ≠ J.null))
    ∧ (∃ w, dataGetO (update env s).1.data (JKey.kstr "AQI")
        = some [("name", J.str "AQI"), ("value", J.str w)]) := by
  by_cases hname : pyTruthy s.station_name = true
  · rw [update_of_truthy env hname] at hok hne ⊢
    exact updateTail_success_shape env s hnd hok hne
  · have hempty : s.data = [] := by
      rcases hinv with hinv | hinv
      · exact absurd hinv hname
      · exact hinv
    unfold update at hok hne ⊢
    cases h1 : phase1 env s with
    | mk s1 o1 =>
      cases o1 with
      | ret =>
        simp only [h1] at hok hne ⊢
        obtain ⟨hs1, _, _⟩ := phase1_ret_inv env h1
        subst hs1
        rw [hempty] at hne
        exact absurd rfl hne
      | exn u =>
        simp only [h1] at hok
        cases hok
      | ok =>
        simp only [h1] at hok hne ⊢
        obtain ⟨ht1, hd1, _⟩ := phase1_ok_inv env h1
        have hnd1 : (dataKeys s1.data).Nodup := by
          rw [hd1, hempty]
          exact List.nodup_nil
        exact updateTail_success_shape env s1 hnd1 hok hne

/-- C9 witness: the healthy single-PM10 cycle from a fresh reader. -/
theorem successful_mapping_fully_populated_witness :
    ((∀ k e, dataGetO (update envGood fresh1).1.data k = some e → ¬k = JKey.kstr "AQI" →
        (∃ v, entryGetO e "value" = some v ∧ v ≠ J.null)
        ∧ (∃ w2, entryGetO e "index" = some w2 ∧ w2 ≠ J.null))
    ∧ (∃ w, dataGetO (update envGood fresh1).1.data (JKey.kstr "AQI")
        = some [("name", J.str "AQI"), ("value", J.str w)])) := by
  refine successful_mapping_fully_populated envGood fresh1 (by decide) (Or.inr rfl) rfl ?_
  intro h
  have hh : dataKeys (update envGood fresh1).1.data = [JKey.kstr "PM10", JKey.kstr "AQI"] := rfl
  rw [h] at hh
  cases hh

/-- C2 (amended): the exceptions that can escape `update` are not
limited to `NoStationError`: a non-success HTTP status raises
`ApiError` (it is not a `ClientError`, so the handler in `_async_get`
does not catch it), and a missing dictionary key during extraction
raises `KeyError` (the `except` clauses list only `ValueError`,
`IndexError`, `TypeError`).  A transport-level connection error never
raises — the fetch yields no data, aborting the cycle with the mapping
untouched (directory step) or cleared (later steps) — and anomalies of
the caught classes (null data, nulls, short value lists) clear the
mapping and end the cycle without raising. -/
theorem update_exception_classification :
    (∀ env s t, pyTruthy s.station_name = false → env.stations = FetchResult.badStatus t →
        update env s = (s, some (UErr.apiError t)))
    ∧ (∀ env s t, pyTruthy s.station_name = true → env.station = FetchResult.badStatus t →
        update env s = (s, some (UErr.apiError t)))
    ∧ (∀ env s s2 t k rest entry sid, pyTruthy s.station_name = true →
        phase2 env s = (s2, Outcome.ok) → dataKeys s2.data = k :: rest →
        ¬k = JKey.kstr "AQI" → dataGet s2.data k = Except.ok entry →
        entryGet entry "id" = Except.ok sid → env.sensor sid = FetchResult.badStatus t →
        update env s = (s2, some (UErr.apiError t)))
    ∧ (∀ env s s2 k rest entry sid sdO e2, pyTruthy s.station_name = true →
        phase2 env s = (s2, Outcome.ok) → dataKeys s2.data = k :: rest →
        ¬k = JKey.kstr "AQI" → dataGet s2.data k = Except.ok entry →
        entryGet entry "id" = Except.ok sid →
        asyncGet (env.sensor sid) = Except.ok sdO → selectValue sdO = Except.error e2 →
        caughtAtValues e2 = false →
        update env s = (s2, some (UErr.py e2)))
    ∧ (∀ env s s2 s3 t, pyTruthy s.station_name = true →
        phase2 env s = (s2, Outcome.ok) → phase3 env s2 = (s3, Outcome.ok) →
        env.indexes = FetchResult.badStatus t →
        update env s = (s3, some (UErr.apiError t)))
    ∧ (∀ env s s2 s3 idx d e2, pyTruthy s.station_name = true →
        phase2 env s = (s2, Outcome.ok) → phase3 env s2 = (s3, Outcome.ok) →
        asyncGet env.indexes = Except.ok idx →
        indexesLoop idx (dataKeys s3.data) s3.data = (d, some e2) →
        caughtAtIndexes e2 = false →
        update env s = ({ s3 with data := d }, some (UErr.py e2)))
    ∧ (∀ env s, pyTruthy s.station_name = false → env.stations = FetchResult.connErr →
        update env s = (s, none))
    ∧ (∀ env s, pyTruthy s.station_name = true → env.station = FetchResult.connErr →
        update env s = ({ s with data := [] }, none))
    ∧ ((update envSensorConn fresh1).1.data = [] ∧ (update envSensorConn fresh1).2 = none)
    ∧ ((update envNullNull fresh1).1.data = [] ∧ (update envNullNull fresh1).2 = none)
    ∧ ((update envZeroOnly fresh1).1.data = [] ∧ (update envZeroOnly fresh1).2 = none)
    ∧ ((update envIdxConn fresh1).1.data = [] ∧ (update envIdxConn fresh1).2 = none)
    ∧ (update envSensorBad fresh1).2 = some (UErr.apiError "bad sensor")
    ∧ (update envIdxBad fresh1).2 = some (UErr.apiError "bad indexes")
    ∧ (update envNoValuesField fresh1).2 = some (UErr.py (PyExc.keyError (JKey.kstr "values")))
    ∧ (update envNoPm10 fresh1).2 = some (UErr.py (PyExc.keyError (JKey.kstr "pm10IndexLevel"))) := by
  refine ⟨?_, ?_, ?_, ?_, ?_, ?_, ?_, ?_,
    ⟨rfl, rfl⟩, ⟨rfl, rfl⟩, ⟨rfl, rfl⟩, ⟨rfl, rfl⟩, rfl, rfl, rfl, rfl⟩
  · intro env s t h1 h2
    have hp : phase1 env s = (s, .exn (.apiError t)) := by
      unfold phase1
      rw [if_neg (by simp [h1]), h2]
      rfl
    unfold update
    rw [hp]
  · intro env s t h1 h2
    rw [update_of_truthy env h1]
    have hp2 : phase2 env s = (s, .exn (.apiError t)) := by
      unfold phase2
      rw [h2]
      rfl
    rw [updateTail_exn2 hp2]
  · intro env s s2 t k rest entry sid hname h2 hks hA hget hid hsens
    rw [update_of_truthy env hname]
    have hloop : valuesLoop env (dataKeys s2.data) s2.data
        = (s2.data, Outcome.exn (UErr.apiError t)) := by
      rw [hks]
      simp only [valuesLoop, if_neg hA, hget, hid, hsens, asyncGet]
    have hp3 : phase3 env s2 = (s2, Outcome.exn (UErr.apiError t)) := by
      unfold phase3
      rw [hloop]
    rw [updateTail_exn3 h2 hp3]
  · intro env s s2 k rest entry sid sdO e2 hname h2 hks hA hget hid hsdo hsel hc
    rw [update_of_truthy env hname]
    have hloop : valuesLoop env (dataKeys s2.data) s2.data
        = (s2.data, Outcome.exn (UErr.py e2)) := by
      rw [hks]
      simp only [valuesLoop, if_neg hA, hget, hid, hsdo, hsel, hc,
        Bool.false_eq_true, if_false]
    have hp3 : phase3 env s2 = (s2, Outcome.exn (UErr.py e2)) := by
      unfold phase3
      rw [hloop]
    rw [updateTail_exn3 h2 hp3]
  · intro env s s2 s3 t hname h2 h3 hidx
    rw [update_of_truthy env hname]
    have hp4 : phase4 env s3 = (s3, Outcome.exn (UErr.apiError t)) := by
      unfold phase4
      rw [hidx]
      rfl
    rw [updateTail_exn4 h2 h3 hp4]
  · intro env s s2 s3 idx d e2 hname h2 h3 hai hil hc
    rw [update_of_truthy env hname]
    have hp4 : phase4 env s3 = ({ s3 with data := d }, Outcome.exn (UErr.py e2)) := by
      unfold phase4
      simp only [hai, hil, hc, Bool.false_eq_true, if_false]
    rw [updateTail_exn4 h2 h3 hp4]
  · intro env s h1 h2
    have hp : phase1 env s = (s, .ret) := by
      unfold phase1
      rw [if_neg (by simp [h1]), h2]
      rfl
    unfold update
    rw [hp]
  · intro env s h1 h2
    rw [update_of_truthy env h1]
    have hp2 : phase2 env s = ({ s with data := [] }, .ret) := by
      unfold phase2
      rw [h2]
      rfl
    rw [updateTail_ret2 hp2]

/-- C2 amended witness: concrete instances of every quantified part,
one per endpoint and extraction site. -/
theorem update_exception_classification_witness :
    pyTruthy fresh1.station_name = false
    ∧ update envBadStations fresh1 = (fresh1, some (UErr.apiError "server error"))
    ∧ pyTruthy cached1.station_name = true
    ∧ update envStationBad cached1 = (cached1, some (UErr.apiError "bad list"))
    ∧ update envSensorBad cached1
        = ({ cached1 with data := [(JKey.kstr "PM10",
            [("id", J.num 10), ("name", J.str "particulate matter 10")])] },
           some (UErr.apiError "bad sensor"))
    ∧ update envNoValuesField cached1
        = ({ cached1 with data := [(JKey.kstr "PM10",
            [("id", J.num 10), ("name", J.str "particulate matter 10")])] },
           some (UErr.py (PyExc.keyError (JKey.kstr "values"))))
    ∧ update envIdxBad cached1
        = ({ cached1 with data := [(JKey.kstr "PM10",
            [("id", J.num 10), ("name", J.str "particulate matter 10"),
             ("value", J.num 42)])] },
           some (UErr.apiError "bad indexes"))
    ∧ update envNoPm10 cached1
        = ({ cached1 with data := [(JKey.kstr "PM10",
            [("id", J.num 10), ("name", J.str "particulate matter 10"),
             ("value", J.num 42)])] },
           some (UErr.py (PyExc.keyError (JKey.kstr "pm10IndexLevel"))))
    ∧ update { envGood with stations := FetchResult.connErr } fresh1 = (fresh1, none)
    ∧ update { envGood with station := FetchResult.connErr } cached1
        = ({ cached1 with data := [] }, none) := by
  obtain ⟨c1, c2, c3, c4, c5, c6, c7, c8, _⟩ := update_exception_classification
  refine ⟨rfl, c1 envBadStations fresh1 "server error" rfl rfl, rfl,
    c2 envStationBad cached1 "bad list" rfl rfl, ?_, ?_, ?_, ?_,
    c7 { envGood with stations := FetchResult.connErr } fresh1 rfl rfl,
    c8 { envGood with station := FetchResult.connErr } cached1 rfl rfl⟩
  · exact c3 envSensorBad cached1
      { cached1 with data := [(JKey.kstr "PM10",
        [("id", J.num 10), ("name", J.str "particulate matter 10")])] }
      "bad sensor" (JKey.kstr "PM10") []
      [("id", J.num 10), ("name", J.str "particulate matter 10")] (J.num 10)
      rfl rfl rfl (by decide) rfl rfl rfl
  · exact c4 envNoValuesField cached1
      { cached1 with data := [(JKey.kstr "PM10",
        [("id", J.num 10), ("name", J.str "particulate matter 10")])] }
      (JKey.kstr "PM10") []
      [("id", J.num 10), ("name", J.str "particulate matter 10")] (J.num 10)
      (some (J.obj [("data", J.null)])) (PyExc.keyError (JKey.kstr "values"))
      rfl rfl rfl (by decide) rfl rfl rfl rfl rfl
  · exact c5 envIdxBad cached1
      { cached1 with data := [(JKey.kstr "PM10",
        [("id", J.num 10), ("name", J.str "particulate matter 10")])] }
      { cached1 with data := [(JKey.kstr "PM10",
        [("id", J.num 10), ("name", J.str "particulate matter 10"), ("value", J.num 42)])] }
      "bad indexes" rfl rfl rfl rfl
  · exact c6 envNoPm10 cached1
      { cached1 with data := [(JKey.kstr "PM10",
        [("id", J.num 10), ("name", J.str "particulate matter 10")])] }
      { cached1 with data := [(JKey.kstr "PM10",
        [("id", J.num 10), ("name", J.str "particulate matter 10"), ("value", J.num 42)])] }
      (some idxDocNoPm10)
      [(JKey.kstr "PM10",
        [("id", J.num 10), ("name", J.str "particulate matter 10"), ("value", J.num 42)])]
      (PyExc.keyError (JKey.kstr "pm10IndexLevel"))
      rfl rfl rfl rfl rfl rfl

theorem update_ret1 {env : Env} {s s1 : GiosState} (h : phase1 env s = (s1, .ret)) :
    update env s = (s1, none) := by
  unfold update
  simp only [h]

theorem update_exn1 {env : Env} {s s1 : GiosState} {u : UErr}
    (h : phase1 env s = (s1, .exn u)) : update env s = (s1, some u) := by
  unfold update
  simp only [h]

theorem update_ok1 {env : Env} {s s1 : GiosState} (h : phase1 env s = (s1, .ok)) :
    update env s = updateTail env s1 := by
  unfold update
  simp only [h]

/-- C7 (counterexample): against one fixed upstream whose directory
lists the matching station followed by a malformed (non-object) entry,
the first `update` caches the station name, then raises an uncaught
`TypeError` with the mapping still empty; the second call skips
resolution and succeeds with a non-empty mapping, so the mapping after
the second call differs from the mapping after the first. -/
theorem first_cycle_raise_breaks_idempotence :
    (update envDirtyDir fresh1).2 = some (UErr.py PyExc.typeError)
    ∧ (update envDirtyDir fresh1).1.data = []
    ∧ (update envDirtyDir (update envDirtyDir fresh1).1).2 = none
    ∧ dataKeys (update envDirtyDir (update envDirtyDir fresh1).1).1.data
        = [JKey.kstr "PM10", JKey.kstr "AQI"]
    ∧ (update envDirtyDir (update envDirtyDir fresh1).1).1.data
        ≠ (update envDirtyDir fresh1).1.data := by
  refine ⟨rfl, rfl, rfl, rfl, ?_⟩
  intro hc
  have hk : dataKeys (update envDirtyDir (update envDirtyDir fresh1).1).1.data
      = [JKey.kstr "PM10", JKey.kstr "AQI"] := rfl
  have h1 : (update envDirtyDir fresh1).1.data = [] := rfl
  rw [hc, h1] at hk
  simp [dataKeys] at hk

/-- C7 (amended): provided the first call returns normally, calling
`update` twice against an unchanged upstream from a fresh reader
produces an identical reading mapping after the second call as after
the first. -/
theorem refresh_idempotent_after_normal_return (env : Env) (sid : J)
    (hok : (update env (initState sid)).2 = none) :
    (update env ((update env (initState sid)).1)).1.data
      = (update env (initState sid)).1.data := by
  cases h1 : phase1 env (initState sid) with
  | mk s1 o1 =>
    cases o1 with
    | ret =>
      obtain ⟨hs1, _, _⟩ := phase1_ret_inv env h1
      subst hs1
      have hu := update_ret1 h1
      simp only [hu]
    | exn u =>
      have hu := update_exn1 h1
      rw [hu] at hok
      simp at hok
    | ok =>
      obtain ⟨hname1, hdata1, _⟩ := phase1_ok_inv env h1
      have hdata1e : s1.data = [] := hdata1.trans rfl
      have hu : update env (initState sid) = updateTail env s1 := update_ok1 h1
      rw [hu] at hok ⊢
      obtain ⟨dT, hT⟩ := updateTail_shape env s1
      have hnameT : pyTruthy (updateTail env s1).1.station_name = true := by
        rw [hT]
        exact hname1
      rw [update_of_truthy env hnameT]
      by_cases hcase : (updateTail env s1).1.data = []
      · have hTs : (updateTail env s1).1 = s1 := by
          rw [hT] at hcase ⊢
          rw [show dT = [] from hcase]
          exact giosState_eta hdata1e
        simp only [hTs]
      · obtain ⟨sd, sensors, d2, d3, idx, dI, w, ha, htr, hi, hb, hv, hai, hil, hstv, huT⟩ :=
          updateTail_success_inv env s1 hok hcase
        simp only [huT]
        rw [buildLoop_eq sensors s1.data] at hb
        injection hb with hb1 hb2
        rw [hdata1e] at hb1
        have hkeys3 : dataKeys d3 = dataKeys d2 := valuesLoop_keys env (dataKeys d2) d2 d3 hv
        have hkeysI : dataKeys dI = dataKeys d3 := indexesLoop_keys idx (dataKeys d3) d3 dI hil
        have hkeysIB : dataKeys dI = dataKeys (applyW [] (buildWrites sensors)) := by
          rw [hkeysI, hkeys3, ← hb1]
        have hreb := applyW_rebuild (buildWrites sensors) dI (JKey.kstr "AQI")
          [("name", J.str "AQI"), ("value", J.str w)] hkeysIB
        by_cases hA : JKey.kstr "AQI" ∈ dataKeys (applyW [] (buildWrites sensors))
        · have hreb1 := hreb.1 hA
          rw [hb1] at hreb1
          have hbF : buildLoop sensors
              (dataSet dI (JKey.kstr "AQI") [("name", J.str "AQI"), ("value", J.str w)])
              = (d2, none) := by
            rw [buildLoop_eq, hreb1, hb2]
          have hp2 := phase2_ok_build env { s1 with
            data := dataSet dI (JKey.kstr "AQI") [("name", J.str "AQI"), ("value", J.str w)] }
            ha htr hi hbF
          have hp3 := phase3_ok_build env { s1 with data := d2 } hv
          have hp4 := phase4_ok_build env { s1 with data := d3 } hai hil hstv
          rw [updateTail_of_phases hp2 hp3 hp4]
        · have hAI : JKey.kstr "AQI" ∉ dataKeys dI := by rw [hkeysIB]; exact hA
          have hreb2 := hreb.2 hA
          rw [hb1] at hreb2
          have hbF : buildLoop sensors
              (dataSet dI (JKey.kstr "AQI") [("name", J.str "AQI"), ("value", J.str w)])
              = (d2 ++ [(JKey.kstr "AQI", [("name", J.str "AQI"), ("value", J.str w)])], none) := by
            rw [buildLoop_eq, hreb2, hb2]
          have hvK := valuesLoop_trail env (dataKeys d2)
            [(JKey.kstr "AQI", [("name", J.str "AQI"), ("value", J.str w)])] d2 d3 hv
          have hv2 : valuesLoop env
              (dataKeys (d2 ++ [(JKey.kstr "AQI", [("name", J.str "AQI"), ("value", J.str w)])]))
              (d2 ++ [(JKey.kstr "AQI", [("name", J.str "AQI"), ("value", J.str w)])])
              = (d3 ++ [(JKey.kstr "AQI", [("name", J.str "AQI"), ("value", J.str w)])], .ok) := by
            rw [dataKeys_append]
            rw [show dataKeys [(JKey.kstr "AQI", [("name", J.str "AQI"), ("value", J.str w)])]
              = [JKey.kstr "AQI"] from rfl]
            rw [valuesLoop_append]
            simp only [hvK]
            rw [valuesLoop_cons_aqi]
            rfl
          have hiK := indexesLoop_trail idx (dataKeys d3)
            [(JKey.kstr "AQI", [("name", J.str "AQI"), ("value", J.str w)])] d3 dI hil
          have hi2 : indexesLoop idx
              (dataKeys (d3 ++ [(JKey.kstr "AQI", [("name", J.str "AQI"), ("value", J.str w)])]))
              (d3 ++ [(JKey.kstr "AQI", [("name", J.str "AQI"), ("value", J.str w)])])
              = (dI ++ [(JKey.kstr "AQI", [("name", J.str "AQI"), ("value", J.str w)])], none) := by
            rw [dataKeys_append]
            rw [show dataKeys [(JKey.kstr "AQI", [("name", J.str "AQI"), ("value", J.str w)])]
              = [JKey.kstr "AQI"] from rfl]
            rw [indexesLoop_append]
            simp only [hiK]
            rw [indexesLoop_cons_aqi]
            rfl
          have hp2 := phase2_ok_build env { s1 with
            data := dataSet dI (JKey.kstr "AQI") [("name", J.str "AQI"), ("value", J.str w)] }
            ha htr hi hbF
          have hp3 := phase3_ok_build env { s1 with
            data := d2 ++ [(JKey.kstr "AQI", [("name", J.str "AQI"), ("value", J.str w)])] } hv2
          have hp4 := phase4_ok_build env { s1 with
            data := d3 ++ [(JKey.kstr "AQI", [("name", J.str "AQI"), ("value", J.str w)])] }
            hai hi2 hstv
          rw [updateTail_of_phases hp2 hp3 hp4]
          show dataSet (dI ++ [(JKey.kstr "AQI", [("name", J.str "AQI"), ("value", J.str w)])])
              (JKey.kstr "AQI") [("name", J.str "AQI"), ("value", J.str w)]
            = dataSet dI (JKey.kstr "AQI") [("name", J.str "AQI"), ("value", J.str w)]
          rw [dataSet_append_right hAI, dataSet_not_mem dI _ _ hAI]
          rfl

/-- C7 amended witness: the healthy upstream from a fresh reader. -/
theorem refresh_idempotent_after_normal_return_witness :
    (update envGood ((update envGood (initState (J.num 1))).1)).1.data
      = (update envGood (initState (J.num 1))).1.data :=
  refresh_idempotent_after_normal_return envGood (J.num 1) rfl

/-- C10: the value-selection test is Python truthiness, not a null
check: `0` is treated as absent, so `[0, 42]` stores `42`, while
`[0, null]` and a lone `[0]` fail the cycle and clear the mapping. -/
theorem zero_value_treated_as_absent :
    pyTruthy (J.num 0) = false
    ∧ selectValue (some valuesZero42) = Except.ok (J.num 42)
    ∧ (update envZero42 fresh1).2 = none
    ∧ dataGetO (update envZero42 fresh1).1.data (JKey.kstr "PM10")
        = some [("id", J.num 10), ("name", J.str "particulate matter 10"),
                ("value", J.num 42), ("index", J.str "good")]
    ∧ selectValue (some valuesZeroNull) = Except.error PyExc.valueError
    ∧ (update envZeroNull fresh1).1.data = []
    ∧ (update envZeroNull fresh1).2 = none
    ∧ selectValue (some valuesZeroOnly) = Except.error PyExc.indexError
    ∧ (update envZeroOnly fresh1).1.data = []
    ∧ (update envZeroOnly fresh1).2 = none :=
  ⟨rfl, rfl, rfl, rfl, rfl, rfl, rfl, rfl, rfl, rfl⟩

end PyGios
